import Mathlib

/-!
Verification development for the validation-and-synchronization engine of the
beneuro experimental-data repository.

The filesystem is embedded shallowly: a path is a list of components and a
filesystem is an association list from paths to entries (regular files carry
content bytes and a modification time, since the conflict check of the source
consults both).  The functions of src/beneuro_data/data_transfer.py and of the
CLI entry points are translated into pure state-passing Lean functions over
this model.  The modules data_validation.py, extra_file_handling.py and
video_renaming.py are imported by the transfer code but are not part of the
provided source; the definitions standing in for them are modelled from the
specification and marked as such in their doc comments.
-/

set_option linter.unusedVariables false

namespace Beneuro

/-- A filesystem path, as the list of its components from the root. -/
abbrev FsPath := List String

/-- A filesystem entry: a regular file with its content bytes and its
modification time (both consulted by the conflict check), or a directory. -/
inductive Entry where
  | file (content : List Nat) (mtime : Nat)
  | dir
deriving DecidableEq

/-- A filesystem: an association list from paths to entries.  Lookup returns
the first binding, so prepending shadows and appending never changes the
value of an existing path. -/
abbrev Fs := List (FsPath × Entry)

/-- Look up the entry stored at a path. -/
def Fs.find (fs : Fs) (p : FsPath) : Option Entry :=
  (List.find? (fun b => b.1 = p) fs).map (fun b => b.2)

/-- Python `Path.exists()`: the path has an entry. -/
def Fs.pathExists (fs : Fs) (p : FsPath) : Bool :=
  (fs.find p).isSome

/-- Store an entry at a path, replacing any previous binding. -/
def Fs.setEntry (fs : Fs) (p : FsPath) (e : Entry) : Fs :=
  (p, e) :: fs.filter (fun b => ¬ b.1 = p)

/-- All proper nonempty ancestors of a path, shortest first (used by mkdir
parents; the filesystem root itself always exists). -/
def ancestors (p : FsPath) : List FsPath :=
  ((List.range p.length).drop 1).map (fun n => p.take n)

/-- Python `Path.mkdir(parents=True, exist_ok=True)` on the parent of a file:
create every missing ancestor directory of the path. -/
def Fs.mkdirParents (fs : Fs) (p : FsPath) : Fs :=
  (ancestors p).foldl
    (fun acc d => if acc.pathExists d then acc else acc ++ [(d, Entry.dir)]) fs

/-- Errors of the Python source, identified by their exception class.
The message strings of the source are not part of the model. -/
inductive Err where
  | fileExistsError
  | fileNotFoundError
  | notADirectoryError
  | runtimeError
  | valueError
  | notImplementedError
  | typeError
deriving DecidableEq

/-- Decidable equality of results, for evaluating concrete runs. -/
instance {e a : Type} [DecidableEq e] [DecidableEq a] : DecidableEq (Except e a) :=
  fun x y =>
    match x, y with
    | Except.error u, Except.error v =>
        if h : u = v then isTrue (by rw [h])
        else isFalse (by intro hc; cases hc; exact h rfl)
    | Except.error u, Except.ok v => isFalse (fun hc => Except.noConfusion hc)
    | Except.ok u, Except.error v => isFalse (fun hc => Except.noConfusion hc)
    | Except.ok u, Except.ok v =>
        if h : u = v then isTrue (by rw [h])
        else isFalse (by intro hc; cases hc; exact h rfl)

/-- Python `shutil.copy2(src, dst)`: copy one file, preserving metadata
(content and mtime in this model).  Fails when the source is not a regular
file or the parent directory of the destination does not exist; overwrites
an existing destination file. -/
def Fs.copy2 (fs : Fs) (src dst : FsPath) : Except Err Fs :=
  match fs.find src with
  | some (Entry.file c m) =>
      if fs.pathExists dst.dropLast ∨ dst.dropLast = [] then
        Except.ok (fs.setEntry dst (Entry.file c m))
      else
        Except.error Err.fileNotFoundError
  | _ => Except.error Err.fileNotFoundError

/-- The subtree of a filesystem rooted at `src`, re-rooted at `dst`:
every entry whose path extends `src` reappears with the `src` components
replaced by `dst`. -/
def Fs.rerootedSubtree (fs : Fs) (src dst : FsPath) : Fs :=
  fs.filterMap (fun b =>
    if src.isPrefixOf b.1 then some (dst ++ b.1.drop src.length, b.2) else none)

/-- Python `shutil.copytree(src, dst, copy_function=shutil.copy2)`: raises
FileExistsError when the destination already exists (via `os.makedirs`),
otherwise recreates the whole subtree at the destination with metadata
preserved.  New bindings are appended, so existing paths keep their value. -/
def Fs.copytree (fs : Fs) (src dst : FsPath) : Except Err Fs :=
  if fs.pathExists dst then Except.error Err.fileExistsError
  else Except.ok (fs ++ fs.rerootedSubtree src dst)

/-- Python `filecmp.cmp(f1, f2)` with its default `shallow=True`: both paths
must be regular files; if their stat signatures (size, mtime) agree the files
are reported equal WITHOUT reading them, otherwise the contents are compared. -/
def pyFilecmpCmp (fs : Fs) (f1 f2 : FsPath) : Bool :=
  match fs.find f1, fs.find f2 with
  | some (Entry.file c1 m1), some (Entry.file c2 m2) =>
      (c1.length = c2.length ∧ m1 = m2) ∨ c1 = c2
  | _, _ => false

/-- Python `filecmp.dircmp(a, b)` returns a comparison OBJECT without
comparing anything; an object is always truthy, so the expression
`not filecmp.dircmp(a, b)` used in the conflict checks of
`upload_raw_ephys_data` and `upload_raw_videos` is always `False`.
This constant records that truthiness. -/
def dircmpIsTruthy : Bool := true

/-- Python `p.relative_to(root)`: the remaining components when `root` is a
prefix of `p`, a ValueError otherwise. -/
def pyRelativeTo (p root : FsPath) : Except Err FsPath :=
  if root.isPrefixOf p then Except.ok (p.drop root.length) else Except.error Err.valueError

/-- The remote counterpart of a local path: the remote root joined with the
path of the local file relative to the local root.  This is the expression
`remote_root / local_path.relative_to(local_root)` used by every transfer
function; it is a pure function of the three paths. -/
def remotePathOf (localRoot remoteRoot p : FsPath) : Except Err FsPath :=
  (pyRelativeTo p localRoot).map (fun rel => remoteRoot ++ rel)

/-- Lexicographic comparison of character lists by code point, as Python
compares strings. -/
def strLt : List Char → List Char → Bool
  | [], [] => false
  | [], _ :: _ => true
  | _ :: _, [] => false
  | a :: as, b :: bs => if a = b then strLt as bs else decide (a.toNat < b.toNat)

/-- Lexicographic comparison of paths, used to model Python `sorted`. -/
def pathLe : FsPath → FsPath → Bool
  | [], _ => true
  | _ :: _, [] => false
  | a :: as, b :: bs => if a = b then pathLe as bs else strLt a.data b.data

/-- Insert a path into a sorted list of paths. -/
def insertPath (p : FsPath) : List FsPath → List FsPath
  | [] => [p]
  | q :: qs => if pathLe p q then p :: q :: qs else q :: insertPath p qs

/-- Python `sorted` on a list of paths (insertion sort). -/
def sortPaths (l : List FsPath) : List FsPath :=
  l.foldr insertPath []

/-- Boolean test that one string starts with another, via the underlying
character lists. -/
def strStartsWith (s pre : String) : Bool :=
  pre.data.isPrefixOf s.data

/-- Boolean test that one string ends with another, via the underlying
character lists. -/
def strEndsWith (s suf : String) : Bool :=
  suf.data.isSuffixOf s.data

/-- Last component of a path (the file or directory name). -/
def lastComponent (p : FsPath) : String :=
  match p.getLast? with
  | some s => s
  | none => ""

/-- Whether an entry is a regular file. -/
def isFileEntry : Entry → Bool
  | Entry.file _ _ => true
  | Entry.dir => false

/-- Immediate children of a directory that are regular files. -/
def childFiles (fs : Fs) (d : FsPath) : List FsPath :=
  fs.filterMap (fun b =>
    if d.isPrefixOf b.1 ∧ b.1.length = d.length + 1 ∧ isFileEntry b.2
    then some b.1 else none)

/-- Immediate children of a directory that are directories. -/
def childDirs (fs : Fs) (d : FsPath) : List FsPath :=
  fs.filterMap (fun b =>
    if d.isPrefixOf b.1 ∧ b.1.length = d.length + 1 ∧ b.2 = Entry.dir
    then some b.1 else none)

/-- Immediate children of a directory, with their entries. -/
def childEntries (fs : Fs) (d : FsPath) : List (FsPath × Entry) :=
  fs.filter (fun b => d.isPrefixOf b.1 ∧ b.1.length = d.length + 1)

/-- Modelled from the spec: the session-name part of the naming convention of
data_validation.py (not in the provided source).  The session folder name has
to start with the subject name followed immediately by an underscore. -/
def sessionNameOk (sessionName subjectName : String) : Bool :=
  strStartsWith sessionName subjectName ∧
  strStartsWith sessionName (subjectName ++ "_")

/-- Modelled from the spec: `validate_raw_behavioral_data_of_session` of
data_validation.py (not in the provided source).  Checks the session name
against the subject, requires exactly one task-definition `.py` file in the
session root, and returns the validated behavioral files (the task script and
its `.pca` companion event logs).  The `warnIfNoPycontrolPyFolder` flag only
controls a soft diagnostic and does not change the returned paths. -/
def validate_raw_behavioral_data_of_session (fs : Fs) (sessionPath : FsPath)
    (subjectName : String) (whitelistedFilesInRoot : List String)
    (warnIfNoPycontrolPyFolder : Bool) : Except Err (List FsPath) :=
  if ¬ sessionNameOk (lastComponent sessionPath) subjectName then
    Except.error Err.valueError
  else
    let rootFiles := childFiles fs sessionPath
    let notWhitelisted :=
      rootFiles.filter (fun p => ¬ whitelistedFilesInRoot.any (fun w => lastComponent p = w))
    let pyFiles := notWhitelisted.filter (fun p => strEndsWith (lastComponent p) (".py"))
    let pcaFiles := notWhitelisted.filter (fun p => strEndsWith (lastComponent p) (".pca"))
    if pyFiles.length = 0 then Except.error Err.fileNotFoundError
    else if 1 < pyFiles.length then Except.error Err.valueError
    else Except.ok (pyFiles ++ pcaFiles)

/-- Modelled from the spec: `validate_raw_ephys_data_of_session` of
data_validation.py (not in the provided source).  Recording folders are the
session subfolders named after the session; each must contain only probe
subfolders whose names match the probe grammar (imec...), any stray file is a
hard error.  More than one recording folder is a soft warning only; all
folders are returned. -/
def validate_raw_ephys_data_of_session (fs : Fs) (sessionPath : FsPath)
    (subjectName : String) (allowedExtensionsNotInRoot : List String) :
    Except Err (List FsPath) :=
  if ¬ sessionNameOk (lastComponent sessionPath) subjectName then
    Except.error Err.valueError
  else
    let sess := lastComponent sessionPath
    let recFolders := (childDirs fs sessionPath).filter
      (fun p => strStartsWith (lastComponent p) (sess ++ "_g"))
    if ¬ recFolders.all (fun r => (childEntries fs r).all (fun c => c.2 = Entry.dir)) then
      Except.error Err.valueError
    else if ¬ recFolders.all (fun r =>
        (childDirs fs r).all (fun c => strStartsWith (lastComponent c) ("imec"))) then
      Except.error Err.valueError
    else
      Except.ok recFolders

/-- Modelled from the spec: `validate_raw_videos_of_session` of
data_validation.py (not in the provided source).  At most one video folder,
named `<session>_cameras`, may exist per session; its camera files must match
the camera grammar (names starting with the session name).  Returns the video
folder if present, `none` otherwise. -/
def validate_raw_videos_of_session (fs : Fs) (sessionPath : FsPath)
    (subjectName : String) : Except Err (Option FsPath) :=
  if ¬ sessionNameOk (lastComponent sessionPath) subjectName then
    Except.error Err.valueError
  else
    let sess := lastComponent sessionPath
    let videoFolder := sessionPath ++ [sess ++ "_cameras"]
    match fs.find videoFolder with
    | some Entry.dir =>
        if (childFiles fs videoFolder).all
            (fun p => strStartsWith (lastComponent p) (sess ++ "_")) then
          Except.ok (some videoFolder)
        else Except.error Err.valueError
    | some (Entry.file _ _) => Except.error Err.notADirectoryError
    | none => Except.ok none

/-- Modelled from the spec: `validate_raw_session` of data_validation.py (not
in the provided source).  Runs the requested ModalityValidators and returns
the per-modality path sets as the tuple `(behavior_files, ephys_folder_paths,
video_folder_path)`; a hard failure of any requested validator aborts the
whole call. -/
def validate_raw_session (fs : Fs) (sessionPath : FsPath) (subjectName : String)
    (includeBehavior includeEphys includeVideos : Bool)
    (whitelistedFilesInRoot allowedExtensionsNotInRoot : List String) :
    Except Err (List FsPath × List FsPath × Option FsPath) := do
  let behaviorFiles ←
    if includeBehavior then
      validate_raw_behavioral_data_of_session fs sessionPath subjectName
        whitelistedFilesInRoot true
    else pure []
  let ephysFolders ←
    if includeEphys then
      validate_raw_ephys_data_of_session fs sessionPath subjectName
        allowedExtensionsNotInRoot
    else pure []
  let videoFolder ←
    if includeVideos then
      validate_raw_videos_of_session fs sessionPath subjectName
    else pure none
  pure (behaviorFiles, ephysFolders, videoFolder)

/-- Canonical form of an extra-file or camera-file name: the name prefixed
with `<session>_`, left unchanged when it already carries that tag. -/
def canonicalName (sess n : String) : String :=
  if strStartsWith n (sess ++ "_") then n else sess ++ "_" ++ n

/-- Whether a path names an extra file of the session: a regular file under
the session directory whose name is whitelisted (exactly, or already in
canonical renamed form) when it sits in the session root, or carries an
allowed extension when it sits deeper in the tree. -/
def isExtraFileOfSession (sess : String)
    (whitelistedFilesInRoot allowedExtensionsNotInRoot : List String)
    (sessionPath p : FsPath) (e : Entry) : Bool :=
  isFileEntry e ∧ sessionPath.isPrefixOf p ∧ sessionPath.length < p.length ∧
  (if p.length = sessionPath.length + 1 then
    whitelistedFilesInRoot.any
      (fun w => lastComponent p = w ∨ lastComponent p = sess ++ "_" ++ w)
  else
    allowedExtensionsNotInRoot.any (fun x => strEndsWith (lastComponent p) x))

/-- Where the extra-file renamer sends one path: extra files of the session
get their name replaced by its canonical `<session>_<original-filename>`
form, in place; every other path is untouched. -/
def renameExtraPath (sess : String)
    (whitelistedFilesInRoot allowedExtensionsNotInRoot : List String)
    (sessionPath p : FsPath) (e : Entry) : FsPath :=
  if isExtraFileOfSession sess whitelistedFilesInRoot allowedExtensionsNotInRoot
      sessionPath p e then
    p.dropLast ++ [canonicalName sess (lastComponent p)]
  else p

/-- Modelled from the spec: `rename_extra_files_in_session` of
extra_file_handling.py (not in the provided source).  Maps
whitelisted/allowed-extension files found anywhere in the session tree to
`<session>_<original-filename>`; a file already in canonical form is left
alone.  Returns the updated filesystem together with the list of moves
performed (source path, target path). -/
def rename_extra_files_in_session (fs : Fs) (sessionPath : FsPath)
    (whitelistedFilesInRoot allowedExtensionsNotInRoot : List String) :
    Fs × List (FsPath × FsPath) :=
  let sess := lastComponent sessionPath
  let f := fun (p : FsPath) (e : Entry) =>
    renameExtraPath sess whitelistedFilesInRoot allowedExtensionsNotInRoot
      sessionPath p e
  (fs.map (fun b => (f b.1 b.2, b.2)),
   fs.filterMap (fun b => if f b.1 b.2 = b.1 then none else some (b.1, f b.1 b.2)))

/-- File extensions treated as camera video recordings by the model. -/
def videoExtensions : List String := [".avi", ".mp4"]

/-- Whether a path names a camera video file of the session: a regular file
under the session directory carrying a video extension. -/
def isVideoFileOfSession (sessionPath p : FsPath) (e : Entry) : Bool :=
  isFileEntry e ∧ sessionPath.isPrefixOf p ∧ sessionPath.length < p.length ∧
  videoExtensions.any (fun x => strEndsWith (lastComponent p) x)

/-- Where the video renamer sends one path: camera video files move into the
`<session>_cameras` folder under their canonical `<session>_...` name; a file
already at its canonical place with a canonical name is left alone; every
other path is untouched. -/
def renameVideoPath (sess : String) (sessionPath p : FsPath) (e : Entry) : FsPath :=
  let camerasDir := sessionPath ++ [sess ++ "_cameras"]
  if isVideoFileOfSession sessionPath p e then
    if p.dropLast = camerasDir ∧ strStartsWith (lastComponent p) (sess ++ "_") then p
    else camerasDir ++ [canonicalName sess (lastComponent p)]
  else p

/-- Modelled from the spec: `rename_raw_videos_of_session` of
video_renaming.py (not in the provided source).  Maps each camera raw
recording file of the session to
`<session>_cameras/<session>_<camera-index>_<n>.<ext>`; the camera index and
counter of the canonical name come from the original file name, which the
model keeps as the suffix of the canonical name.  Returns the updated
filesystem together with the list of moves performed. -/
def rename_raw_videos_of_session (fs : Fs) (sessionPath : FsPath)
    (subjectName : String) : Fs × List (FsPath × FsPath) :=
  let sess := lastComponent sessionPath
  let f := fun (p : FsPath) (e : Entry) => renameVideoPath sess sessionPath p e
  (fs.map (fun b => (f b.1 b.2, b.2)),
   fs.filterMap (fun b => if f b.1 b.2 = b.1 then none else some (b.1, f b.1 b.2)))

/-- Modelled from the spec: `_find_whitelisted_files_in_root` of
extra_file_handling.py (not in the provided source).  The files sitting
directly in the session root whose name matches the configured whitelist
exactly or in canonical renamed form. -/
def find_whitelisted_files_in_root (fs : Fs) (sessionPath : FsPath)
    (whitelistedFilesInRoot : List String) : List FsPath :=
  let sess := lastComponent sessionPath
  (childFiles fs sessionPath).filter (fun p =>
    whitelistedFilesInRoot.any
      (fun w => lastComponent p = w ∨ lastComponent p = sess ++ "_" ++ w))

/-- Modelled from the spec: `_find_extra_files_with_extension` of
extra_file_handling.py (not in the provided source).  The files deeper than
the session root (anywhere else in the session tree) carrying the given
extension. -/
def find_extra_files_with_extension (fs : Fs) (sessionPath : FsPath)
    (extension : String) : List FsPath :=
  fs.filterMap (fun b =>
    if isFileEntry b.2 ∧ sessionPath.isPrefixOf b.1 ∧
        sessionPath.length + 1 < b.1.length ∧
        strEndsWith (lastComponent b.1) extension
    then some b.1 else none)

/-- Function `_validate_local_session_path` of data_transfer.py: the session path must
be a subdirectory of the local root and contain the processing level among
its parts. -/
def validate_local_session_path (localSessionPath localRoot : FsPath)
    (processingLevel : String) : Except Err Unit :=
  if ¬ localRoot.isPrefixOf localSessionPath then Except.error Err.valueError
  else if ¬ localSessionPath.contains processingLevel then Except.error Err.valueError
  else Except.ok ()

/-- The remote targets planned for a list of local paths: each local path is
sent to `base / path.relative_to(root)` via `remotePathOf`. -/
def plannedRemotePaths (root base : FsPath) (locals : List FsPath) :
    Except Err (List FsPath) :=
  locals.mapM (fun lp => remotePathOf root base lp)

/-- The conflict loop of `upload_raw_behavioral_data`: for each planned pair,
if the remote file exists and `filecmp.cmp` (shallow) reports it different
from the local one, a FileExistsError is raised; nothing is copied here. -/
def behavioralConflictCheck (fs : Fs) : List (FsPath × FsPath) → Except Err Unit
  | [] => Except.ok ()
  | (lp, rp) :: rest =>
      if fs.pathExists rp ∧ ¬ pyFilecmpCmp fs lp rp then Except.error Err.fileExistsError
      else behavioralConflictCheck fs rest

/-- The copy loop of `upload_raw_behavioral_data`: create the remote parent
directories and `shutil.copy2` each file in order, collecting the remote
paths copied.  On an error the filesystem reached so far is kept. -/
def copyBehavioralFiles (fs : Fs) : List (FsPath × FsPath) → Fs × Except Err (List FsPath)
  | [] => (fs, Except.ok [])
  | (lp, rp) :: rest =>
      let fs1 := fs.mkdirParents rp
      match fs1.copy2 lp rp with
      | Except.error e => (fs1, Except.error e)
      | Except.ok fs2 =>
          match copyBehavioralFiles fs2 rest with
          | (fs3, Except.error e) => (fs3, Except.error e)
          | (fs3, Except.ok copied) => (fs3, Except.ok (rp :: copied))

/-- Function `upload_raw_behavioral_data` of data_transfer.py: validate the local
session path and the local behavioral data, plan the remote paths, run the
conflict check, copy the files, re-validate the remote session, and require
the re-validated set to equal the planned set up to ordering. -/
def upload_raw_behavioral_data (fs : Fs) (localSessionPath : FsPath)
    (subjectName : String) (localRoot remoteRoot : FsPath)
    (whitelistedFilesInRoot : List String) : Fs × Except Err (List FsPath) :=
  match validate_local_session_path localSessionPath localRoot ("raw") with
  | Except.error e => (fs, Except.error e)
  | Except.ok _ =>
  match validate_raw_behavioral_data_of_session fs localSessionPath subjectName
      whitelistedFilesInRoot true with
  | Except.error e => (fs, Except.error e)
  | Except.ok localFilePaths =>
  match pyRelativeTo localSessionPath localRoot with
  | Except.error e => (fs, Except.error e)
  | Except.ok rel =>
  let remoteSessionPath := remoteRoot ++ rel
  match plannedRemotePaths localSessionPath remoteSessionPath localFilePaths with
  | Except.error e => (fs, Except.error e)
  | Except.ok remoteFilePaths =>
  match behavioralConflictCheck fs (localFilePaths.zip remoteFilePaths) with
  | Except.error e => (fs, Except.error e)
  | Except.ok _ =>
  match copyBehavioralFiles fs (localFilePaths.zip remoteFilePaths) with
  | (fs1, Except.error e) => (fs1, Except.error e)
  | (fs1, Except.ok copied) =>
  match validate_raw_behavioral_data_of_session fs1 remoteSessionPath subjectName
      whitelistedFilesInRoot false with
  | Except.error e => (fs1, Except.error e)
  | Except.ok remoteThere =>
      if ¬ sortPaths remoteThere = sortPaths remoteFilePaths then
        (fs1, Except.error Err.runtimeError)
      else (fs1, Except.ok copied)

/-- The conflict loop of `upload_raw_ephys_data` and of `upload_raw_videos`:
the source tests `remote_path.exists() and not filecmp.dircmp(local, remote)`;
since the `dircmp` object is always truthy the second conjunct is always
false and the loop can never raise. -/
def ephysConflictCheck (fs : Fs) : List (FsPath × FsPath) → Except Err Unit
  | [] => Except.ok ()
  | (lp, rp) :: rest =>
      if fs.pathExists rp ∧ ¬ dircmpIsTruthy then Except.error Err.fileExistsError
      else ephysConflictCheck fs rest

/-- The copy loop of `upload_raw_ephys_data`: `shutil.copytree` each
recording folder in order.  On an error the folders already copied are kept. -/
def copytreeAll (fs : Fs) : List (FsPath × FsPath) → Fs × Except Err Unit
  | [] => (fs, Except.ok ())
  | (lp, rp) :: rest =>
      match fs.copytree lp rp with
      | Except.error e => (fs, Except.error e)
      | Except.ok fs1 => copytreeAll fs1 rest

/-- Function `upload_raw_ephys_data` of data_transfer.py: validate the local session
path and the local recordings, plan the remote folders, run the (inert)
conflict check, copy the folders, then re-validate the remote session and
return whatever that re-validation yields; no comparison against the planned
set is performed. -/
def upload_raw_ephys_data (fs : Fs) (localSessionPath : FsPath)
    (subjectName : String) (localRoot remoteRoot : FsPath)
    (allowedExtensionsNotInRoot : List String) : Fs × Except Err (List FsPath) :=
  match validate_local_session_path localSessionPath localRoot ("raw") with
  | Except.error e => (fs, Except.error e)
  | Except.ok _ =>
  match validate_raw_ephys_data_of_session fs localSessionPath subjectName
      allowedExtensionsNotInRoot with
  | Except.error e => (fs, Except.error e)
  | Except.ok localRecordingFolders =>
  if localRecordingFolders.length = 0 then (fs, Except.error Err.fileNotFoundError)
  else
  match plannedRemotePaths localRoot remoteRoot localRecordingFolders with
  | Except.error e => (fs, Except.error e)
  | Except.ok remoteRecordingFolders =>
  match ephysConflictCheck fs (localRecordingFolders.zip remoteRecordingFolders) with
  | Except.error e => (fs, Except.error e)
  | Except.ok _ =>
  match copytreeAll fs (localRecordingFolders.zip remoteRecordingFolders) with
  | (fs1, Except.error e) => (fs1, Except.error e)
  | (fs1, Except.ok _) =>
  match pyRelativeTo localSessionPath localRoot with
  | Except.error e => (fs1, Except.error e)
  | Except.ok rel =>
  match validate_raw_ephys_data_of_session fs1 (remoteRoot ++ rel) subjectName
      allowedExtensionsNotInRoot with
  | Except.error e => (fs1, Except.error e)
  | Except.ok remoteThere => (fs1, Except.ok remoteThere)

/-- Function `upload_raw_videos` of data_transfer.py: validate the local session path
and the local video folder, plan the remote folder, run the (inert) conflict
check, copy the folder, re-validate the remote session, and require the
re-validated folder to be the planned one. -/
def upload_raw_videos (fs : Fs) (localSessionPath : FsPath)
    (subjectName : String) (localRoot remoteRoot : FsPath) : Fs × Except Err FsPath :=
  match validate_local_session_path localSessionPath localRoot ("raw") with
  | Except.error e => (fs, Except.error e)
  | Except.ok _ =>
  match validate_raw_videos_of_session fs localSessionPath subjectName with
  | Except.error e => (fs, Except.error e)
  | Except.ok none => (fs, Except.error Err.fileNotFoundError)
  | Except.ok (some localVideoFolderPath) =>
  match remotePathOf localRoot remoteRoot localVideoFolderPath with
  | Except.error e => (fs, Except.error e)
  | Except.ok remoteVideoFolderPath =>
  if fs.pathExists remoteVideoFolderPath ∧ ¬ dircmpIsTruthy then
    (fs, Except.error Err.fileExistsError)
  else
  match fs.copytree localVideoFolderPath remoteVideoFolderPath with
  | Except.error e => (fs, Except.error e)
  | Except.ok fs1 =>
  match pyRelativeTo localSessionPath localRoot with
  | Except.error e => (fs1, Except.error e)
  | Except.ok rel =>
  match validate_raw_videos_of_session fs1 (remoteRoot ++ rel) subjectName with
  | Except.error e => (fs1, Except.error e)
  | Except.ok none => (fs1, Except.error Err.fileNotFoundError)
  | Except.ok (some remoteVideoFolderFound) =>
      if ¬ remoteVideoFolderFound = remoteVideoFolderPath then
        (fs1, Except.error Err.runtimeError)
      else (fs1, Except.ok remoteVideoFolderFound)

/-- The copy loop of `upload_extra_files`: for each local extra file, skip it
when its remote path already exists (it is not copied and not collected),
otherwise `shutil.copy2` it (the source creates no parent directories here). -/
def copyExtraFiles (fs : Fs) (localRoot remoteRoot : FsPath) :
    List FsPath → Fs × Except Err (List FsPath)
  | [] => (fs, Except.ok [])
  | lp :: rest =>
      match remotePathOf localRoot remoteRoot lp with
      | Except.error e => (fs, Except.error e)
      | Except.ok rp =>
          if fs.pathExists rp then copyExtraFiles fs localRoot remoteRoot rest
          else
            match fs.copy2 lp rp with
            | Except.error e => (fs, Except.error e)
            | Except.ok fs1 =>
                match copyExtraFiles fs1 localRoot remoteRoot rest with
                | (fs2, Except.error e) => (fs2, Except.error e)
                | (fs2, Except.ok copied) => (fs2, Except.ok (rp :: copied))

/-- Function `upload_extra_files` of data_transfer.py: rename the extra files to the
convention, collect the whitelisted root files and the allowed-extension
files, and copy each one whose remote path does not already exist; files
whose remote path exists are skipped without any comparison or error. -/
def upload_extra_files (fs : Fs) (localSessionPath : FsPath)
    (subjectName : String) (localRoot remoteRoot : FsPath)
    (whitelistedFilesInRoot allowedExtensionsNotInRoot : List String) :
    Fs × Except Err (List FsPath) :=
  let fs0 := (rename_extra_files_in_session fs localSessionPath
    whitelistedFilesInRoot allowedExtensionsNotInRoot).1
  let whitelistedPathsInRoot :=
    find_whitelisted_files_in_root fs0 localSessionPath whitelistedFilesInRoot
  let extraFilesWithAllowedExtensions :=
    allowedExtensionsNotInRoot.foldl
      (fun acc x => acc ++ find_extra_files_with_extension fs0 localSessionPath x) []
  copyExtraFiles fs0 localRoot remoteRoot
    (whitelistedPathsInRoot ++ extraFilesWithAllowedExtensions)

/-- Observable events of one `upload_raw_session` call, in the order they
happen.  The validation event records the filesystem the validator saw; each
modality event records the filesystem right after that modality finished
successfully. -/
inductive Event where
  | renamedVideos
  | renamedExtraFiles
  | validated (fs : Fs)
  | didBehavior (fs : Fs)
  | didEphys (fs : Fs)
  | didVideos (fs : Fs)
  | didExtraFiles (fs : Fs)
deriving DecidableEq

/-- The four data modalities transferred by `upload_raw_session`, in their
fixed order of appearance in the source. -/
inductive Modality where
  | behavior
  | ephys
  | videos
  | extraFiles
deriving DecidableEq

/-- The trace event recording a successful modality transfer. -/
def modalityEvent : Modality → Fs → Event
  | Modality.behavior => Event.didBehavior
  | Modality.ephys => Event.didEphys
  | Modality.videos => Event.didVideos
  | Modality.extraFiles => Event.didExtraFiles

/-- The modality recorded by a trace event, if any. -/
def eventModality : Event → Option Modality
  | Event.didBehavior _ => some Modality.behavior
  | Event.didEphys _ => some Modality.ephys
  | Event.didVideos _ => some Modality.videos
  | Event.didExtraFiles _ => some Modality.extraFiles
  | _ => none

/-- The successful modality transfers recorded in a trace, in order. -/
def traceModalities (tr : List Event) : List Modality :=
  tr.filterMap eventModality

/-- The modalities requested by the include flags of `upload_raw_session`,
in the fixed order of the source: behavior, ephys, videos, extra files. -/
def requestedModalities (includeBehavior includeEphys includeVideos
    includeExtraFiles : Bool) : List Modality :=
  (if includeBehavior then [Modality.behavior] else []) ++
  (if includeEphys then [Modality.ephys] else []) ++
  (if includeVideos then [Modality.videos] else []) ++
  (if includeExtraFiles then [Modality.extraFiles] else [])

/-- The per-modality transfer of `upload_raw_session`, with the transfer
result discarded as in the source (only the raised error matters there). -/
def modalityAct (localSessionPath : FsPath) (subjectName : String)
    (localRoot remoteRoot : FsPath)
    (whitelistedFilesInRoot allowedExtensionsNotInRoot : List String) :
    Modality → Fs → Fs × Except Err Unit
  | Modality.behavior, fs =>
      let r := upload_raw_behavioral_data fs localSessionPath subjectName localRoot
        remoteRoot whitelistedFilesInRoot
      (r.1, r.2.map (fun _ => ()))
  | Modality.ephys, fs =>
      let r := upload_raw_ephys_data fs localSessionPath subjectName localRoot
        remoteRoot allowedExtensionsNotInRoot
      (r.1, r.2.map (fun _ => ()))
  | Modality.videos, fs =>
      let r := upload_raw_videos fs localSessionPath subjectName localRoot remoteRoot
      (r.1, r.2.map (fun _ => ()))
  | Modality.extraFiles, fs =>
      let r := upload_extra_files fs localSessionPath subjectName localRoot remoteRoot
        whitelistedFilesInRoot allowedExtensionsNotInRoot
      (r.1, r.2.map (fun _ => ()))

/-- Run the requested modality transfers sequentially from a filesystem and
an accumulated trace: each successful transfer appends its event, the first
error stops the run and propagates, with no rollback of earlier transfers. -/
def runModalities (act : Modality → Fs → Fs × Except Err Unit) :
    List Modality → Fs × List Event → Fs × List Event × Except Err Bool
  | [], st => (st.1, st.2, Except.ok true)
  | m :: rest, st =>
      match act m st.1 with
      | (fs1, Except.error e) => (fs1, st.2, Except.error e)
      | (fs1, Except.ok _) =>
          runModalities act rest (fs1, st.2 ++ [modalityEvent m fs1])

/-- The filesystem seen by `validate_raw_session` inside
`upload_raw_session`: the input filesystem after the requested renamings,
videos first, extra files second. -/
def renamedStage (fs : Fs) (localSessionPath : FsPath) (subjectName : String)
    (whitelistedFilesInRoot allowedExtensionsNotInRoot : List String)
    (renameVideosFirst renameExtraFilesFirst : Bool) : Fs :=
  let fs1 := if renameVideosFirst then
      (rename_raw_videos_of_session fs localSessionPath subjectName).1
    else fs
  if renameExtraFilesFirst then
    (rename_extra_files_in_session fs1 localSessionPath whitelistedFilesInRoot
      allowedExtensionsNotInRoot).1
  else fs1

/-- Function `upload_raw_session` of data_transfer.py: optionally rename videos and
extra files (each rename flag requires the matching include flag), validate
the whole local session, then run the per-modality transfers sequentially in
the fixed order behavior, ephys, videos, extra files.  The first error
propagates immediately; nothing already copied is rolled back.  Returns the
final filesystem, the event trace and the result. -/
def upload_raw_session (fs : Fs) (localSessionPath : FsPath) (subjectName : String)
    (localRoot remoteRoot : FsPath)
    (includeBehavior includeEphys includeVideos includeExtraFiles : Bool)
    (whitelistedFilesInRoot allowedExtensionsNotInRoot : List String)
    (renameVideosFirst renameExtraFilesFirst : Bool) :
    Fs × List Event × Except Err Bool :=
  if renameVideosFirst ∧ ¬ includeVideos then (fs, [], Except.error Err.valueError)
  else
    let fs1 := if renameVideosFirst then
        (rename_raw_videos_of_session fs localSessionPath subjectName).1
      else fs
    let ev1 : List Event := if renameVideosFirst then [Event.renamedVideos] else []
    if renameExtraFilesFirst ∧ ¬ includeExtraFiles then
      (fs1, ev1, Except.error Err.valueError)
    else
      let fs2 := if renameExtraFilesFirst then
          (rename_extra_files_in_session fs1 localSessionPath whitelistedFilesInRoot
            allowedExtensionsNotInRoot).1
        else fs1
      let ev2 := ev1 ++ (if renameExtraFilesFirst then [Event.renamedExtraFiles] else [])
      match validate_raw_session fs2 localSessionPath subjectName includeBehavior
          includeEphys includeVideos whitelistedFilesInRoot
          allowedExtensionsNotInRoot with
      | Except.error e => (fs2, ev2, Except.error e)
      | Except.ok _ =>
          runModalities
            (modalityAct localSessionPath subjectName localRoot remoteRoot
              whitelistedFilesInRoot allowedExtensionsNotInRoot)
            (requestedModalities includeBehavior includeEphys includeVideos
              includeExtraFiles)
            (fs2, ev2 ++ [Event.validated fs2])

/-- Modelled from the spec: `get_last_session_path` of query_sessions.py (not
in the provided source).  The chronologically last session of the subject;
session names sort chronologically, so it is the largest session directory
name. -/
def get_last_session_path (fs : Fs) (subjectPath : FsPath) (subjectName : String) :
    Except Err FsPath :=
  match (sortPaths (childDirs fs subjectPath)).reverse with
  | [] => Except.error Err.fileNotFoundError
  | p :: _ => Except.ok p

/-- Function `validate_session` of cli/validate_commands.py: the processing-level
guard, the at-least-one-modality guard, the directory checks, then one
`validate_raw_session` call on the session path. -/
def validate_session_cmd (fs : Fs) (sessionPath : FsPath) (subjectName : String)
    (processingLevel : String)
    (checkBehavior checkEphys checkVideos : Bool) : Except Err Unit :=
  if ¬ processingLevel = "raw" then Except.error Err.notImplementedError
  else if ¬ checkBehavior ∧ ¬ checkEphys ∧ ¬ checkVideos then
    Except.error Err.valueError
  else if ¬ fs.find sessionPath = some Entry.dir then Except.error Err.valueError
  else if ¬ fs.pathExists sessionPath then Except.error Err.valueError
  else
    (validate_raw_session fs sessionPath subjectName checkBehavior checkEphys
      checkVideos [] []).map (fun _ => ())

/-- Function `upload_last` of cli/upload_commands.py: the processing-level guard, the
at-least-one-modality guard, then the configuration load, the last-session
lookup and the upload call.  The source invokes `upload_raw_session` with
only seven of its twelve required positional arguments, which in Python is a
TypeError at the call site; the model returns that error there. -/
def upload_last_cmd (fs : Fs) (subjectName : String) (processingLevel : String)
    (includeBehavior includeEphys includeVideos : Bool)
    (localRoot remoteRoot : FsPath) : Except Err Bool :=
  if ¬ processingLevel = "raw" then Except.error Err.notImplementedError
  else if ¬ includeBehavior ∧ ¬ includeEphys ∧ ¬ includeVideos then
    Except.error Err.valueError
  else
    match get_last_session_path fs (localRoot ++ [processingLevel, subjectName])
        subjectName with
    | Except.error e => Except.error e
    | Except.ok _ => Except.error Err.typeError

/-- Function `validate_sessions` of cli/validate_commands.py: after the guards, visit
every session directory of the subject sequentially and validate each one,
converting a raised error into a per-session report entry instead of
aborting the batch. -/
def validate_sessions_cmd (fs : Fs) (subjectName : String)
    (processingLevel : String) (rootPath : FsPath)
    (checkBehavior checkEphys checkVideos : Bool) :
    Except Err (List (FsPath × Option Err)) :=
  if ¬ processingLevel = "raw" then Except.error Err.notImplementedError
  else if ¬ checkBehavior ∧ ¬ checkEphys ∧ ¬ checkVideos then
    Except.error Err.valueError
  else
    let subjectPath := rootPath ++ [processingLevel, subjectName]
    Except.ok ((childDirs fs subjectPath).map (fun sp =>
      (sp,
        match validate_raw_session fs sp subjectName checkBehavior checkEphys
            checkVideos [] [] with
        | Except.error e => some e
        | Except.ok _ => none)))

/-! Concrete example data used by the counterexamples and witnesses below. -/

/-- Example session name following the convention. -/
def exSess : String := "M017_2024_03_12_18_45"

/-- Example local session path. -/
def exLsp : FsPath := ["local", "raw", "M017", exSess]

/-- Example remote session path (the local one with the root swapped). -/
def exRsp : FsPath := ["remote", "raw", "M017", exSess]

/-- A filesystem where the remote already holds a behavioral file whose
content differs from the local one while size and mtime agree, so the
shallow `filecmp.cmp` reports the files equal. -/
def exFsConflict : Fs :=
  [ (["local"], Entry.dir), (["local", "raw"], Entry.dir),
    (["local", "raw", "M017"], Entry.dir), (exLsp, Entry.dir),
    (exLsp ++ ["task.py"], Entry.file [1, 2, 3] 100),
    (["remote"], Entry.dir), (["remote", "raw"], Entry.dir),
    (["remote", "raw", "M017"], Entry.dir), (exRsp, Entry.dir),
    (exRsp ++ ["task.py"], Entry.file [9, 9, 9] 100) ]

/-- A filesystem where the remote session already holds a second, valid
recording folder that the local session does not have. -/
def exFsEphysExtra : Fs :=
  [ (["local"], Entry.dir), (["local", "raw"], Entry.dir),
    (["local", "raw", "M017"], Entry.dir), (exLsp, Entry.dir),
    (exLsp ++ [exSess ++ "_g0"], Entry.dir),
    (exLsp ++ [exSess ++ "_g0", "imec0"], Entry.dir),
    (exLsp ++ [exSess ++ "_g0", "imec0", "data.bin"], Entry.file [5] 7),
    (["remote"], Entry.dir), (["remote", "raw"], Entry.dir),
    (["remote", "raw", "M017"], Entry.dir), (exRsp, Entry.dir),
    (exRsp ++ [exSess ++ "_g1"], Entry.dir),
    (exRsp ++ [exSess ++ "_g1", "imec0"], Entry.dir) ]

/-- A subject with two sessions: the first has no task script (its
validation fails), the second is a valid behavioral session. -/
def exFsBatch : Fs :=
  [ (["local"], Entry.dir), (["local", "raw"], Entry.dir),
    (["local", "raw", "M017"], Entry.dir),
    (["local", "raw", "M017", "M017_2024_03_11_10_00"], Entry.dir),
    (["local", "raw", "M017", "M017_2024_03_12_18_45"], Entry.dir),
    (["local", "raw", "M017", "M017_2024_03_12_18_45", "task.py"],
      Entry.file [1] 1) ]

/-- A session with a whitelisted extra file whose remote counterpart (under
its canonical renamed name) already exists with different content. -/
def exFsExtraSkip : Fs :=
  [ (["local"], Entry.dir), (["local", "raw"], Entry.dir),
    (["local", "raw", "M017"], Entry.dir), (exLsp, Entry.dir),
    (exLsp ++ ["comment.txt"], Entry.file [1, 2] 11),
    (["remote"], Entry.dir), (["remote", "raw"], Entry.dir),
    (["remote", "raw", "M017"], Entry.dir), (exRsp, Entry.dir),
    (exRsp ++ [exSess ++ "_comment.txt"], Entry.file [7, 7, 7] 22) ]

/-- A fully valid local session (task script, whitelisted comment file, one
recording folder with one probe, a cameras folder with one camera file) and
an empty remote tree, so that a whole-session upload succeeds. -/
def exFsFull : Fs :=
  [ (["local"], Entry.dir), (["local", "raw"], Entry.dir),
    (["local", "raw", "M017"], Entry.dir), (exLsp, Entry.dir),
    (exLsp ++ ["task.py"], Entry.file [1, 2, 3] 100),
    (exLsp ++ ["comment.txt"], Entry.file [4] 5),
    (exLsp ++ [exSess ++ "_g0"], Entry.dir),
    (exLsp ++ [exSess ++ "_g0", "imec0"], Entry.dir),
    (exLsp ++ [exSess ++ "_g0", "imec0", "data.bin"], Entry.file [5] 7),
    (exLsp ++ [exSess ++ "_cameras"], Entry.dir),
    (exLsp ++ [exSess ++ "_cameras", exSess ++ "_0_0.avi"], Entry.file [8] 9),
    (["remote"], Entry.dir), (["remote", "raw"], Entry.dir),
    (["remote", "raw", "M017"], Entry.dir) ]

/-- A valid local behavioral session whose remote session directory already
holds an extra event-log file: after the copy, re-validating the remote
session returns more files than were planned, so the behavioral verification
step fails. -/
def exFsBehavMismatch : Fs :=
  [ (["local"], Entry.dir), (["local", "raw"], Entry.dir),
    (["local", "raw", "M017"], Entry.dir), (exLsp, Entry.dir),
    (exLsp ++ ["task.py"], Entry.file [1, 2, 3] 100),
    (["remote"], Entry.dir), (["remote", "raw"], Entry.dir),
    (["remote", "raw", "M017"], Entry.dir), (exRsp, Entry.dir),
    (exRsp ++ ["extra.pca"], Entry.file [2] 3) ]

/-! Helper lemmas about the filesystem model. -/

theorem find_append_of_find (fs l : Fs) (q : FsPath) (e : Entry)
    (h : fs.find q = some e) : (fs ++ l).find q = some e := by
  unfold Fs.find at h ⊢
  rw [List.find?_append]
  rcases hf : List.find? (fun b => b.1 = q) fs with _ | b
  · rw [hf] at h; exact Option.noConfusion h
  · rw [hf] at h ⊢; exact h

theorem find_filter_ne (fs : Fs) (p q : FsPath) (hne : ¬ q = p) :
    Fs.find (fs.filter (fun b => ¬ b.1 = p)) q = fs.find q := by
  induction fs with
  | nil => rfl
  | cons b rest ih =>
      by_cases hb : b.1 = p
      · have hbq : ¬ (b.1 = q) := by
          intro hq; exact hne (hq ▸ hb)
        simp only [Fs.find, List.filter_cons, hb] at ih ⊢
        simp only [decide_eq_true_eq] at *
        rw [if_neg (by simp [hb])]
        simp only [List.find?]
        rw [decide_eq_false hbq]
        exact ih
      · simp only [Fs.find, List.filter_cons] at ih ⊢
        rw [if_pos (by simpa using hb)]
        simp only [List.find?]
        by_cases hbq : b.1 = q
        · rw [decide_eq_true hbq]
        · rw [decide_eq_false hbq]
          exact ih

theorem find_setEntry (fs : Fs) (p : FsPath) (v : Entry) (q : FsPath) :
    (fs.setEntry p v).find q = if q = p then some v else fs.find q := by
  by_cases hq : q = p
  · subst hq
    simp [Fs.setEntry, Fs.find, List.find?]
  · rw [if_neg hq]
    simp only [Fs.setEntry, Fs.find, List.find?]
    rw [decide_eq_false (fun hpq => hq (hpq.symm))]
    exact find_filter_ne fs p q hq

theorem mkdirParents_preserve (fs : Fs) (p q : FsPath) (e : Entry)
    (h : fs.find q = some e) : (fs.mkdirParents p).find q = some e := by
  unfold Fs.mkdirParents
  generalize ancestors p = l
  induction l generalizing fs with
  | nil => exact h
  | cons d rest ih =>
      simp only [List.foldl_cons]
      by_cases hd : fs.pathExists d
      · rw [if_pos hd]; exact ih fs h
      · rw [if_neg hd]
        exact ih _ (find_append_of_find fs [(d, Entry.dir)] q e h)

theorem copy2_ok (fs : Fs) (src dst fs1) (h : fs.copy2 src dst = Except.ok fs1) :
    ∃ c m, fs.find src = some (Entry.file c m) ∧
      fs1 = fs.setEntry dst (Entry.file c m) := by
  unfold Fs.copy2 at h
  split at h
  case _ c m hs =>
    split at h
    · exact ⟨c, m, hs, (Except.ok.inj h).symm⟩
    · exact Except.noConfusion h
  case _ => exact Except.noConfusion h

theorem copy2_error (fs : Fs) (src dst e) (h : fs.copy2 src dst = Except.error e) :
    e = Err.fileNotFoundError := by
  unfold Fs.copy2 at h
  split at h
  case _ c m hs =>
    split at h
    · exact Except.noConfusion h
    · exact (Except.error.inj h).symm
  case _ => exact (Except.error.inj h).symm

theorem copytree_ok (fs : Fs) (src dst fs1)
    (h : fs.copytree src dst = Except.ok fs1) :
    fs1 = fs ++ fs.rerootedSubtree src dst := by
  unfold Fs.copytree at h
  by_cases hd : fs.pathExists dst
  · rw [if_pos hd] at h; simp at h
  · rw [if_neg hd] at h; simpa using h.symm

theorem copytree_preserve (fs : Fs) (src dst : FsPath) (fs1 : Fs) (q : FsPath)
    (e : Entry) (h : fs.copytree src dst = Except.ok fs1)
    (hq : fs.find q = some e) : fs1.find q = some e := by
  rw [copytree_ok fs src dst fs1 h]
  exact find_append_of_find _ _ _ _ hq

theorem copytreeAll_preserve (l : List (FsPath × FsPath)) (fs : Fs) (q : FsPath)
    (e : Entry) (h : fs.find q = some e) : (copytreeAll fs l).1.find q = some e := by
  induction l generalizing fs with
  | nil => exact h
  | cons pr rest ih =>
      unfold copytreeAll
      rcases hc : fs.copytree pr.1 pr.2 with er | fs1
      · exact h
      · exact ih fs1 (copytree_preserve fs pr.1 pr.2 fs1 q e hc h)

theorem ephysConflictCheck_ok (fs : Fs) (l : List (FsPath × FsPath)) :
    ephysConflictCheck fs l = Except.ok () := by
  induction l with
  | nil => rfl
  | cons pr rest ih =>
      unfold ephysConflictCheck
      rw [if_neg]
      · exact ih
      · simp [dircmpIsTruthy]

theorem strStartsWith_append (a b : String) : strStartsWith (a ++ b) a = true := by
  unfold strStartsWith
  rw [String.data_append, List.isPrefixOf_iff_prefix]
  exact List.prefix_append a.data b.data

theorem strEndsWith_of_append (pre s x : String) (h : strEndsWith s x = true) :
    strEndsWith (pre ++ s) x = true := by
  unfold strEndsWith at h ⊢
  rw [String.data_append, List.isSuffixOf_iff_suffix] at *
  exact h.trans (List.suffix_append pre.data s.data)

theorem lastComponent_concat (l : FsPath) (a : String) :
    lastComponent (l ++ [a]) = a := by
  unfold lastComponent
  rw [List.getLast?_concat]

theorem pyRelativeTo_error (p root : FsPath) (e : Err)
    (h : pyRelativeTo p root = Except.error e) : e = Err.valueError := by
  unfold pyRelativeTo at h
  split at h
  · exact Except.noConfusion h
  · exact (Except.error.inj h).symm

theorem pyRelativeTo_ok (p root : FsPath) (rel : FsPath)
    (h : pyRelativeTo p root = Except.ok rel) :
    root.isPrefixOf p = true ∧ rel = p.drop root.length := by
  unfold pyRelativeTo at h
  split at h
  case _ hpre => exact ⟨hpre, (Except.ok.inj h).symm⟩
  case _ => exact Except.noConfusion h

theorem remotePathOf_error (root base lp : FsPath) (e : Err)
    (h : remotePathOf root base lp = Except.error e) : e = Err.valueError := by
  unfold remotePathOf at h
  rcases hp : pyRelativeTo lp root with e' | rel
  · rw [hp] at h
    simp only [Except.map] at h
    exact (Except.error.inj h) ▸ pyRelativeTo_error lp root e' hp
  · rw [hp] at h
    simp only [Except.map] at h
    exact Except.noConfusion h

theorem remotePathOf_ok (root base lp rp : FsPath)
    (h : remotePathOf root base lp = Except.ok rp) :
    root.isPrefixOf lp = true ∧ rp = base ++ lp.drop root.length := by
  unfold remotePathOf at h
  rcases hp : pyRelativeTo lp root with e' | rel
  · rw [hp] at h
    simp only [Except.map] at h
    exact Except.noConfusion h
  · rw [hp] at h
    simp only [Except.map] at h
    obtain ⟨hpre, hrel⟩ := pyRelativeTo_ok lp root rel hp
    exact ⟨hpre, (Except.ok.inj h).symm.trans (by rw [hrel])⟩

theorem pathExists_of_find (fs : Fs) (q : FsPath) (e : Entry)
    (h : fs.find q = some e) : fs.pathExists q = true := by
  unfold Fs.pathExists
  rw [h]
  rfl

theorem copyExtraFiles_preserve (lr rr : FsPath) (l : List FsPath) (fs : Fs)
    (q : FsPath) (e : Entry) (h : fs.find q = some e) :
    (copyExtraFiles fs lr rr l).1.find q = some e := by
  induction l generalizing fs with
  | nil => exact h
  | cons lp rest ih =>
      unfold copyExtraFiles
      rcases hr : remotePathOf lr rr lp with er | rp
      · exact h
      · dsimp only
        by_cases hex : fs.pathExists rp
        · rw [if_pos hex]
          exact ih fs h
        · rw [if_neg hex]
          rcases hc : fs.copy2 lp rp with er | fs1
          · exact h
          · dsimp only
            obtain ⟨c, m, hsrc, hfs1⟩ := copy2_ok fs lp rp fs1 hc
            have hqne : ¬ q = rp := by
              intro hqrp
              rw [hqrp] at h
              exact hex (pathExists_of_find fs rp e h)
            have h1 : fs1.find q = some e := by
              rw [hfs1, find_setEntry, if_neg hqne]
              exact h
            have := ih fs1 h1
            rcases hrec : copyExtraFiles fs1 lr rr rest with ⟨fs2, r2⟩
            rw [hrec] at this
            cases r2 <;> exact this

theorem copyExtraFiles_skip (lr rr : FsPath) (l : List FsPath) (fs : Fs)
    (rp0 : FsPath) (h : fs.pathExists rp0 = true) (copied : List FsPath)
    (hok : (copyExtraFiles fs lr rr l).2 = Except.ok copied) : rp0 ∉ copied := by
  induction l generalizing fs copied with
  | nil =>
      simp only [copyExtraFiles] at hok
      rw [← Except.ok.inj hok]
      exact List.not_mem_nil rp0
  | cons lp rest ih =>
      unfold copyExtraFiles at hok
      rcases hr : remotePathOf lr rr lp with er | rp
      · rw [hr] at hok
        exact Except.noConfusion hok
      · rw [hr] at hok
        dsimp only at hok
        by_cases hex : fs.pathExists rp
        · rw [if_pos hex] at hok
          exact ih fs h copied hok
        · rw [if_neg hex] at hok
          rcases hc : fs.copy2 lp rp with er | fs1
          · rw [hc] at hok
            exact Except.noConfusion hok
          · rw [hc] at hok
            dsimp only at hok
            obtain ⟨c, m, hsrc, hfs1⟩ := copy2_ok fs lp rp fs1 hc
            have hne : ¬ rp0 = rp := by
              intro hq
              rw [hq] at h
              rw [h] at hex
              exact hex rfl
            have h1 : fs1.pathExists rp0 = true := by
              unfold Fs.pathExists at h ⊢
              rcases hf : fs.find rp0 with _ | e0
              · rw [hf] at h; simp at h
              · rw [hfs1, find_setEntry, if_neg hne, hf]
                rfl
            rcases hrec : copyExtraFiles fs1 lr rr rest with ⟨fs2, r2⟩
            rw [hrec] at hok
            cases r2 with
            | error e2 => exact Except.noConfusion hok
            | ok copied2 =>
                have : copied = rp :: copied2 := (Except.ok.inj hok).symm
                rw [this]
                intro hmem
                rcases List.mem_cons.mp hmem with h0 | h0
                · exact hne h0
                · exact ih fs1 h1 copied2 (by rw [hrec]) h0

theorem copyExtraFiles_no_fileExists (lr rr : FsPath) (l : List FsPath) (fs : Fs) :
    ¬ (copyExtraFiles fs lr rr l).2 = Except.error Err.fileExistsError := by
  induction l generalizing fs with
  | nil => intro h; exact Except.noConfusion h
  | cons lp rest ih =>
      intro h
      unfold copyExtraFiles at h
      rcases hr : remotePathOf lr rr lp with er | rp
      · rw [hr] at h
        have := remotePathOf_error lr rr lp er hr
        rw [this] at h
        exact Err.noConfusion (Except.error.inj h)
      · rw [hr] at h
        dsimp only at h
        by_cases hex : fs.pathExists rp
        · rw [if_pos hex] at h
          exact ih fs h
        · rw [if_neg hex] at h
          rcases hc : fs.copy2 lp rp with er | fs1
          · rw [hc] at h
            have := copy2_error fs lp rp er hc
            rw [this] at h
            exact Err.noConfusion (Except.error.inj h)
          · rw [hc] at h
            dsimp only at h
            rcases hrec : copyExtraFiles fs1 lr rr rest with ⟨fs2, r2⟩
            rw [hrec] at h
            cases r2 with
            | error e2 =>
                apply ih fs1
                rw [hrec]
                exact congrArg (fun r => (fs2, r).2) h ▸ h
            | ok copied2 => exact Except.noConfusion h

theorem eventModality_modalityEvent (m : Modality) (fs' : Fs) :
    eventModality (modalityEvent m fs') = some m := by
  cases m <;> rfl

theorem modalityEvent_fs_eq (m m' : Modality) (x y : Fs)
    (h : modalityEvent m x = modalityEvent m' y) : x = y := by
  cases m <;> cases m' <;> simp_all [modalityEvent]

theorem traceModalities_append (a b : List Event) :
    traceModalities (a ++ b) = traceModalities a ++ traceModalities b := by
  unfold traceModalities
  exact List.filterMap_append a b eventModality

theorem traceModalities_single_modality (m : Modality) (fs' : Fs) :
    traceModalities [modalityEvent m fs'] = [m] := by
  unfold traceModalities
  simp [List.filterMap, eventModality_modalityEvent]

theorem runModalities_tags (act : Modality → Fs → Fs × Except Err Unit)
    (ms : List Modality) (st : Fs × List Event) :
    ∃ n, traceModalities (runModalities act ms st).2.1 =
        traceModalities st.2 ++ ms.take n ∧
      ((runModalities act ms st).2.2 = Except.ok true →
        traceModalities (runModalities act ms st).2.1 =
          traceModalities st.2 ++ ms) := by
  induction ms generalizing st with
  | nil =>
      refine ⟨0, by simp [runModalities], fun _ => by simp [runModalities]⟩
  | cons m rest ih =>
      unfold runModalities
      rcases hact : act m st.1 with ⟨fs1, r⟩
      cases r with
      | error e =>
          refine ⟨0, by simp, fun hok => Except.noConfusion hok⟩
      | ok _ =>
          obtain ⟨n, h1, h2⟩ := ih (fs1, st.2 ++ [modalityEvent m fs1])
          refine ⟨n + 1, ?_, fun hok => ?_⟩
          · rw [h1]
            simp only [traceModalities_append, traceModalities_single_modality,
              List.take_succ_cons, List.append_assoc, List.singleton_append]
          · rw [h2 hok]
            simp only [traceModalities_append, traceModalities_single_modality,
              List.append_assoc, List.singleton_append]

theorem runModalities_trace_shape (act : Modality → Fs → Fs × Except Err Unit)
    (ms : List Modality) (st : Fs × List Event) :
    ∃ extra, (runModalities act ms st).2.1 = st.2 ++ extra ∧
      ∀ ev ∈ extra, ∃ m fs', ev = modalityEvent m fs' := by
  induction ms generalizing st with
  | nil =>
      exact ⟨[], by simp [runModalities],
        fun ev hev => absurd hev (List.not_mem_nil ev)⟩
  | cons m rest ih =>
      unfold runModalities
      rcases hact : act m st.1 with ⟨fs1, r⟩
      cases r with
      | error e =>
          exact ⟨[], by simp, fun ev hev => absurd hev (List.not_mem_nil ev)⟩
      | ok _ =>
          obtain ⟨extra, h1, h2⟩ := ih (fs1, st.2 ++ [modalityEvent m fs1])
          refine ⟨modalityEvent m fs1 :: extra, ?_, ?_⟩
          · rw [h1]
            simp [List.append_assoc]
          · intro ev hev
            rcases List.mem_cons.mp hev with h0 | h0
            · exact ⟨m, fs1, h0⟩
            · exact h2 ev h0

theorem runModalities_persist_all (P : FsPath → Prop)
    (act : Modality → Fs → Fs × Except Err Unit) (ms : List Modality)
    (st : Fs × List Event)
    (hpres : ∀ m, m ∈ ms → ∀ fs q e, P q → fs.find q = some e →
      ((act m fs).1).find q = some e)
    (hinv : ∀ m fs', modalityEvent m fs' ∈ st.2 → ∀ q e, P q →
      fs'.find q = some e → st.1.find q = some e) :
    ∀ m fs', modalityEvent m fs' ∈ (runModalities act ms st).2.1 → ∀ q e, P q →
      fs'.find q = some e → (runModalities act ms st).1.find q = some e := by
  induction ms generalizing st with
  | nil =>
      intro m fs' hmem q e hP hq
      exact hinv m fs' hmem q e hP hq
  | cons m0 rest ih =>
      intro m fs' hmem q e hP hq
      unfold runModalities at hmem ⊢
      rcases hact : act m0 st.1 with ⟨fs1, r⟩
      rw [hact] at hmem
      cases r with
      | error e0 =>
          dsimp only at hmem ⊢
          have h1 := hinv m fs' hmem q e hP hq
          have h2 := hpres m0 (List.mem_cons_self m0 rest) st.1 q e hP h1
          rw [hact] at h2
          exact h2
      | ok _ =>
          dsimp only at hmem ⊢
          refine ih (fs1, st.2 ++ [modalityEvent m0 fs1])
            (fun mm hmm => hpres mm (List.mem_cons_of_mem m0 hmm)) ?_ m fs' hmem q e hP hq
          intro mm fs'' hmm qq ee hPq hqq
          rcases List.mem_append.mp hmm with h0 | h0
          · have h1 := hinv mm fs'' h0 qq ee hPq hqq
            have h2 := hpres m0 (List.mem_cons_self m0 rest) st.1 qq ee hPq h1
            rw [hact] at h2
            exact h2
          · have heq : modalityEvent mm fs'' = modalityEvent m0 fs1 :=
              List.mem_singleton.mp h0
            rw [modalityEvent_fs_eq mm m0 fs'' fs1 heq] at hqq
            exact hqq

theorem runModalities_persist (P : FsPath → Prop)
    (act : Modality → Fs → Fs × Except Err Unit) (ms : List Modality)
    (st : Fs × List Event)
    (hfree : ∀ m fs', modalityEvent m fs' ∉ st.2)
    (hpres : ∀ m, m ∈ ms.drop 1 → ∀ fs q e, P q → fs.find q = some e →
      ((act m fs).1).find q = some e) :
    ∀ m fs', modalityEvent m fs' ∈ (runModalities act ms st).2.1 → ∀ q e, P q →
      fs'.find q = some e → (runModalities act ms st).1.find q = some e := by
  cases ms with
  | nil =>
      intro m fs' hmem q e hP hq
      exact absurd hmem (hfree m fs')
  | cons m0 rest =>
      intro m fs' hmem q e hP hq
      unfold runModalities at hmem ⊢
      rcases hact : act m0 st.1 with ⟨fs1, r⟩
      rw [hact] at hmem
      cases r with
      | error e0 =>
          dsimp only at hmem ⊢
          exact absurd hmem (hfree m fs')
      | ok _ =>
          dsimp only at hmem ⊢
          refine runModalities_persist_all P act rest
            (fs1, st.2 ++ [modalityEvent m0 fs1])
            (fun mm hmm => hpres mm hmm) ?_ m fs' hmem q e hP hq
          intro mm fs'' hmm qq ee hPq hqq
          rcases List.mem_append.mp hmm with h0 | h0
          · exact absurd h0 (hfree mm fs'')
          · have heq : modalityEvent mm fs'' = modalityEvent m0 fs1 :=
              List.mem_singleton.mp h0
            rw [modalityEvent_fs_eq mm m0 fs'' fs1 heq] at hqq
            exact hqq

theorem upload_raw_ephys_data_preserve (fs : Fs) (lsp : FsPath) (subj : String)
    (lr rr : FsPath) (ax : List String) (q : FsPath) (en : Entry)
    (h : fs.find q = some en) :
    (upload_raw_ephys_data fs lsp subj lr rr ax).1.find q = some en := by
  unfold upload_raw_ephys_data
  split
  · exact h
  · split
    · exact h
    · rename_i lrf hlrf
      split
      · exact h
      · split
        · exact h
        · rename_i rrf hrrf
          split
          · exact h
          · split
            · rename_i fs1 e1 heq
              have hp := copytreeAll_preserve (lrf.zip rrf) fs q en h
              rw [heq] at hp
              exact hp
            · rename_i fs1 u heq
              have hp := copytreeAll_preserve (lrf.zip rrf) fs q en h
              rw [heq] at hp
              split
              · exact hp
              · split
                · exact hp
                · exact hp

theorem upload_raw_videos_preserve (fs : Fs) (lsp : FsPath) (subj : String)
    (lr rr : FsPath) (q : FsPath) (en : Entry) (h : fs.find q = some en) :
    (upload_raw_videos fs lsp subj lr rr).1.find q = some en := by
  unfold upload_raw_videos
  split
  · exact h
  · split
    · exact h
    · exact h
    · rename_i lv hlv
      split
      · exact h
      · rename_i rv hrv
        split
        · exact h
        · split
          · exact h
          · rename_i fs1 heq
            have hp := copytree_preserve fs lv rv fs1 q en heq h
            split
            · exact hp
            · split
              · exact hp
              · exact hp
              · split
                · exact hp
                · exact hp

theorem find_map_of_path_fixed (fs : Fs) (g : FsPath → Entry → FsPath) (q : FsPath)
    (h : ∀ p e, g p e = q ↔ p = q) :
    Fs.find (fs.map (fun b => (g b.1 b.2, b.2))) q = fs.find q := by
  induction fs with
  | nil => rfl
  | cons b rest ih =>
      simp only [List.map_cons, Fs.find, List.find?]
      by_cases hb : g b.1 b.2 = q
      · rw [decide_eq_true hb, decide_eq_true ((h b.1 b.2).mp hb)]
        rfl
      · rw [decide_eq_false hb, decide_eq_false (fun hbq => hb ((h b.1 b.2).mpr hbq))]
        exact ih

theorem prefix_dropLast_concat (root p : FsPath) (x : String)
    (hpre : root.isPrefixOf p = true) (hlen : root.length < p.length) :
    root.isPrefixOf (p.dropLast ++ [x]) = true := by
  rw [List.isPrefixOf_iff_prefix] at hpre ⊢
  have h1 : root <+: p.dropLast := by
    apply List.prefix_of_prefix_length_le hpre (List.dropLast_prefix p)
    rw [List.length_dropLast]
    omega
  exact h1.trans (List.prefix_append p.dropLast [x])

theorem renameExtraPath_fixed_iff (sess : String) (wl ax : List String)
    (lsp q : FsPath) (hq : ¬ lsp.isPrefixOf q = true) :
    ∀ p e, renameExtraPath sess wl ax lsp p e = q ↔ p = q := by
  intro p e
  unfold renameExtraPath
  by_cases ht : isExtraFileOfSession sess wl ax lsp p e = true
  · rw [if_pos ht]
    have hpre : lsp.isPrefixOf p = true ∧ lsp.length < p.length := by
      unfold isExtraFileOfSession at ht
      simp only [Bool.and_eq_true, decide_eq_true_eq] at ht
      exact ⟨ht.2.1, ht.2.2.1⟩
    constructor
    · intro hres
      exact absurd (hres ▸ prefix_dropLast_concat lsp p _ hpre.1 hpre.2) hq
    · intro hpq
      subst hpq
      exact absurd hpre.1 hq
  · rw [if_neg ht]

theorem rename_extra_preserve_find (fs : Fs) (lsp : FsPath) (wl ax : List String)
    (q : FsPath) (hq : ¬ lsp.isPrefixOf q = true) :
    Fs.find ((rename_extra_files_in_session fs lsp wl ax).1) q = fs.find q := by
  unfold rename_extra_files_in_session
  exact find_map_of_path_fixed fs _ q
    (renameExtraPath_fixed_iff (lastComponent lsp) wl ax lsp q hq)

theorem upload_extra_files_preserve (fs : Fs) (lsp : FsPath) (subj : String)
    (lr rr : FsPath) (wl ax : List String) (q : FsPath) (en : Entry)
    (hq : ¬ lsp.isPrefixOf q = true) (h : fs.find q = some en) :
    (upload_extra_files fs lsp subj lr rr wl ax).1.find q = some en := by
  unfold upload_extra_files
  apply copyExtraFiles_preserve
  rw [rename_extra_preserve_find fs lsp wl ax q hq]
  exact h

theorem modalityAct_preserve (lsp : FsPath) (subj : String) (lr rr : FsPath)
    (wl ax : List String) (m : Modality) (hm : ¬ m = Modality.behavior)
    (fs : Fs) (q : FsPath) (en : Entry) (hq : ¬ lsp.isPrefixOf q = true)
    (h : fs.find q = some en) :
    ((modalityAct lsp subj lr rr wl ax m fs).1).find q = some en := by
  cases m with
  | behavior => exact absurd rfl hm
  | ephys => exact upload_raw_ephys_data_preserve fs lsp subj lr rr ax q en h
  | videos => exact upload_raw_videos_preserve fs lsp subj lr rr q en h
  | extraFiles => exact upload_extra_files_preserve fs lsp subj lr rr wl ax q en hq h

theorem behavior_not_in_tail (b c d e : Bool) (m : Modality)
    (h : m ∈ (requestedModalities b c d e).drop 1) : ¬ m = Modality.behavior := by
  revert h
  revert m
  cases b <;> cases c <;> cases d <;> cases e <;> decide

theorem modalityEvent_notin_init (m : Modality) (fs' : Fs) (b c : Bool) (fsx : Fs) :
    modalityEvent m fs' ∉
      ((if b then [Event.renamedVideos] else []) ++
        (if c then [Event.renamedExtraFiles] else [])) ++ [Event.validated fsx] := by
  cases b <;> cases c <;> cases m <;> simp [modalityEvent]

theorem traceModalities_init (b c : Bool) (fsx : Fs) :
    traceModalities
      (((if b then [Event.renamedVideos] else []) ++
        (if c then [Event.renamedExtraFiles] else [])) ++ [Event.validated fsx]) = [] := by
  cases b <;> cases c <;> simp [traceModalities, List.filterMap, eventModality]

theorem isPrefixOf_append_self (a b : FsPath) : a.isPrefixOf (a ++ b) = true := by
  rw [List.isPrefixOf_iff_prefix]
  exact List.prefix_append a b

/-- Claim C4: the remote path computed during sync for a local path under the
local root is exactly the remote root joined with the path relative to the
local root; `remotePathOf` is the pure mapping expression
`remote_root / p.relative_to(local_root)` used by every transfer function,
and it succeeds exactly on the paths under the local root, producing the
root-substituted mirror path. -/
theorem claim_C4_remote_path_root_substitution :
    (∀ localRoot remoteRoot rel : FsPath,
      remotePathOf localRoot remoteRoot (localRoot ++ rel) =
        Except.ok (remoteRoot ++ rel)) ∧
    (∀ localRoot remoteRoot p q : FsPath,
      remotePathOf localRoot remoteRoot p = Except.ok q →
        ∃ rel, p = localRoot ++ rel ∧ q = remoteRoot ++ rel) := by
  constructor
  · intro lr rr rel
    unfold remotePathOf pyRelativeTo
    rw [if_pos (isPrefixOf_append_self lr rel)]
    simp only [Except.map, List.drop_left]
  · intro lr rr p q h
    obtain ⟨hpre, hq⟩ := remotePathOf_ok lr rr p q h
    rw [List.isPrefixOf_iff_prefix] at hpre
    obtain ⟨rel, hrel⟩ := hpre
    refine ⟨rel, hrel.symm, ?_⟩
    rw [hq, ← hrel, List.drop_left]

/-- Witness for C4 at a concrete path: the example local session path maps to
the example remote session path. -/
theorem claim_C4_witness :
    ∃ rel, exLsp = ["local"] ++ rel ∧ exRsp = ["remote"] ++ rel :=
  claim_C4_remote_path_root_substitution.2 ["local"] ["remote"] exLsp exRsp (by decide)

/-- Claim C3: the pre-copy conflict check does NOT compare files
byte-for-byte: `filecmp.cmp` with its default shallow mode reports two files
with equal size and mtime as equal although their contents differ; and the
directory conflict condition built on `not filecmp.dircmp(...)` can never
fire at all, for any filesystem and any pair list. -/
theorem claim_C3_comparison_not_bytewise :
    pyFilecmpCmp exFsConflict (exLsp ++ ["task.py"]) (exRsp ++ ["task.py"]) = true ∧
    exFsConflict.find (exLsp ++ ["task.py"]) = some (Entry.file [1, 2, 3] 100) ∧
    exFsConflict.find (exRsp ++ ["task.py"]) = some (Entry.file [9, 9, 9] 100) ∧
    ¬ ([1, 2, 3] : List Nat) = [9, 9, 9] ∧
    (∀ (fs : Fs) (pairs : List (FsPath × FsPath)),
      ephysConflictCheck fs pairs = Except.ok ()) :=
  ⟨by decide, by decide, by decide, by decide, ephysConflictCheck_ok⟩

/-- Claim C1: conflict safety is violated by the code.  On `exFsConflict`
the remote behavioral file exists with content different from the local one
(but equal size and mtime), yet `upload_raw_behavioral_data` raises no
FileExistsError, reports success, and silently overwrites the remote file. -/
theorem claim_C1_conflict_safety_violated :
    (upload_raw_behavioral_data exFsConflict exLsp ("M017") ["local"] ["remote"] []).2 =
      Except.ok [exRsp ++ ["task.py"]] ∧
    exFsConflict.find (exRsp ++ ["task.py"]) = some (Entry.file [9, 9, 9] 100) ∧
    exFsConflict.find (exLsp ++ ["task.py"]) = some (Entry.file [1, 2, 3] 100) ∧
    (upload_raw_behavioral_data exFsConflict exLsp ("M017") ["local"] ["remote"] []).1.find
      (exRsp ++ ["task.py"]) = some (Entry.file [1, 2, 3] 100) :=
  ⟨by decide, by decide, by decide, by decide⟩

/-- Counterexample to claim C2: the ephys transfer performs no comparison of
the re-validated remote set against the planned set.  On `exFsEphysExtra`
the remote session already holds a second valid recording folder, the upload
returns successfully, and the returned re-validated set differs from the
planned one; no verification error is raised. -/
theorem claim_C2_counterexample :
    (upload_raw_ephys_data exFsEphysExtra exLsp ("M017") ["local"] ["remote"] []).2 =
      Except.ok [exRsp ++ [exSess ++ "_g1"], exRsp ++ [exSess ++ "_g0"]] ∧
    validate_raw_ephys_data_of_session exFsEphysExtra exLsp ("M017") [] =
      Except.ok [exLsp ++ [exSess ++ "_g0"]] ∧
    plannedRemotePaths ["local"] ["remote"] [exLsp ++ [exSess ++ "_g0"]] =
      Except.ok [exRsp ++ [exSess ++ "_g0"]] ∧
    ¬ ([exRsp ++ [exSess ++ "_g1"], exRsp ++ [exSess ++ "_g0"]] =
        [exRsp ++ [exSess ++ "_g0"]]) :=
  ⟨by decide, by decide, by decide, by decide⟩

/-- Counterexample to claim C6: with all three modality booleans false but a
non-raw processing level, the entry points raise NotImplementedError, not
ValueError. -/
theorem claim_C6_counterexample :
    validate_session_cmd [] ["x"] "M017" "processed" false false false =
      Except.error Err.notImplementedError ∧
    ¬ (Err.notImplementedError = Err.valueError) :=
  ⟨rfl, by decide⟩

/-- Claim C6 (amended): with all three modality booleans false, the
validation and upload entry points raise ValueError when the processing
level is "raw", and NotImplementedError otherwise; in both cases the outcome
is independent of the filesystem, so the guard fires before any validation
or filesystem work. -/
theorem claim_C6_amended :
    ∀ (fs : Fs) (sessionPath : FsPath) (subjectName processingLevel : String)
      (localRoot remoteRoot : FsPath),
      validate_session_cmd fs sessionPath subjectName processingLevel
          false false false =
        Except.error (if processingLevel = "raw" then Err.valueError
          else Err.notImplementedError) ∧
      upload_last_cmd fs subjectName processingLevel false false false
          localRoot remoteRoot =
        Except.error (if processingLevel = "raw" then Err.valueError
          else Err.notImplementedError) := by
  intro fs sp subj pl lr rr
  by_cases hpl : pl = "raw"
  · rw [if_pos hpl]
    unfold validate_session_cmd upload_last_cmd
    constructor
    · rw [if_neg (by simp [hpl]), if_pos (by simp)]
    · rw [if_neg (by simp [hpl]), if_pos (by simp)]
  · rw [if_neg hpl]
    unfold validate_session_cmd upload_last_cmd
    constructor
    · rw [if_pos hpl]
    · rw [if_pos hpl]

/-- Claim C9: batch validation of the sessions of a subject visits every
session directory sequentially and converts each session's validation
failure into a per-session report entry; an error in one session never
prevents the validation of the remaining sessions, and the report covers
exactly the session directories in order. -/
theorem claim_C9_batch_isolation :
    ∀ (fs : Fs) (subjectName : String) (rootPath : FsPath) (cb ce cv : Bool)
      (hone : cb = true ∨ ce = true ∨ cv = true),
      ∃ reports,
        validate_sessions_cmd fs subjectName ("raw") rootPath cb ce cv =
          Except.ok reports ∧
        reports.map Prod.fst = childDirs fs (rootPath ++ ["raw", subjectName]) ∧
        ∀ pr ∈ reports,
          pr.2 = match validate_raw_session fs pr.1 subjectName cb ce cv [] [] with
            | Except.error e => some e
            | Except.ok _ => none := by
  intro fs subj root cb ce cv hone
  unfold validate_sessions_cmd
  rw [if_neg (by simp), if_neg ?hguard]
  case hguard => rcases hone with h | h | h <;> simp [h]
  refine ⟨_, rfl, ?_, ?_⟩
  · rw [List.map_map]
    exact List.map_id'' (fun x => rfl) _
  · intro pr hpr
    obtain ⟨sp, hsp, hpr2⟩ := List.mem_map.mp hpr
    rw [← hpr2]

/-- Witness for C9 on a subject with a failing first session and a valid
second one: both sessions appear in the report. -/
theorem claim_C9_witness :
    ∃ reports,
      validate_sessions_cmd exFsBatch ("M017") "raw" ["local"] true false false =
        Except.ok reports ∧
      reports.map Prod.fst = childDirs exFsBatch (["local"] ++ ["raw", "M017"]) ∧
      ∀ pr ∈ reports,
        pr.2 = match validate_raw_session exFsBatch pr.1 ("M017") true false false [] [] with
          | Except.error e => some e
          | Except.ok _ => none :=
  claim_C9_batch_isolation exFsBatch ("M017") ["local"] true false false (Or.inl rfl)

/-- Claim C10: `upload_extra_files` never overwrites an existing remote
file.  Every entry present after the renaming step keeps its value in the
final filesystem, a file whose remote path already exists is never in the
returned copied list (it is skipped without comparison), and the function
can never raise a FileExistsError. -/
theorem claim_C10_extra_files_skip :
    ∀ (fs : Fs) (lsp : FsPath) (subj : String) (lr rr : FsPath)
      (wl ax : List String),
      (∀ q e, ((rename_extra_files_in_session fs lsp wl ax).1).find q = some e →
        (upload_extra_files fs lsp subj lr rr wl ax).1.find q = some e) ∧
      (∀ rp copied,
        ((rename_extra_files_in_session fs lsp wl ax).1).pathExists rp = true →
        (upload_extra_files fs lsp subj lr rr wl ax).2 = Except.ok copied →
        rp ∉ copied) ∧
      ¬ (upload_extra_files fs lsp subj lr rr wl ax).2 =
          Except.error Err.fileExistsError := by
  intro fs lsp subj lr rr wl ax
  refine ⟨?_, ?_, ?_⟩
  · intro q e h
    exact copyExtraFiles_preserve lr rr _ _ q e h
  · intro rp copied hex hok
    exact copyExtraFiles_skip lr rr _ _ rp hex copied hok
  · exact copyExtraFiles_no_fileExists lr rr _ _

/-- Witness for C10: the whitelisted comment file whose remote counterpart
already exists is skipped, the run succeeds copying nothing, and the remote
file keeps its old content. -/
theorem claim_C10_witness :
    (upload_extra_files exFsExtraSkip exLsp ("M017") ["local"] ["remote"]
      ["comment.txt"] [".txt"]).2 = Except.ok [] ∧
    (upload_extra_files exFsExtraSkip exLsp ("M017") ["local"] ["remote"]
      ["comment.txt"] [".txt"]).1.find (exRsp ++ [exSess ++ "_comment.txt"]) =
      some (Entry.file [7, 7, 7] 22) :=
  ⟨by decide,
    (claim_C10_extra_files_skip exFsExtraSkip exLsp ("M017") ["local"] ["remote"]
      ["comment.txt"] [".txt"]).1 (exRsp ++ [exSess ++ "_comment.txt"])
      (Entry.file [7, 7, 7] 22) (by decide)⟩

theorem canonicalName_startsWith (sess n : String) :
    strStartsWith (canonicalName sess n) (sess ++ "_") = true := by
  unfold canonicalName
  by_cases h : strStartsWith n (sess ++ "_") = true
  · rw [if_pos h]
    exact h
  · rw [if_neg h]
    exact strStartsWith_append (sess ++ "_") n

theorem canonicalName_idem (sess n : String) :
    canonicalName sess (canonicalName sess n) = canonicalName sess n := by
  by_cases h0 : strStartsWith n (sess ++ "_") = true <;>
    simp [canonicalName, h0, strStartsWith_append]

theorem renameExtraPath_idem (sess : String) (wl ax : List String) (lsp : FsPath)
    (p : FsPath) (e : Entry) :
    renameExtraPath sess wl ax lsp (renameExtraPath sess wl ax lsp p e) e =
      renameExtraPath sess wl ax lsp p e := by
  by_cases ht : isExtraFileOfSession sess wl ax lsp p e = true
  · have hA : renameExtraPath sess wl ax lsp p e =
        p.dropLast ++ [canonicalName sess (lastComponent p)] := by
      unfold renameExtraPath
      rw [if_pos ht]
    rw [hA]
    unfold renameExtraPath
    by_cases ht2 : isExtraFileOfSession sess wl ax lsp
        (p.dropLast ++ [canonicalName sess (lastComponent p)]) e = true
    · rw [if_pos ht2, List.dropLast_concat, lastComponent_concat, canonicalName_idem]
    · rw [if_neg ht2]
  · have hid : renameExtraPath sess wl ax lsp p e = p := by
      unfold renameExtraPath
      rw [if_neg ht]
    rw [hid]
    exact hid

theorem renameVideoPath_idem (sess : String) (lsp : FsPath) (p : FsPath) (e : Entry) :
    renameVideoPath sess lsp (renameVideoPath sess lsp p e) e =
      renameVideoPath sess lsp p e := by
  by_cases hv : isVideoFileOfSession lsp p e = true
  · by_cases hc : p.dropLast = lsp ++ [sess ++ "_cameras"] ∧
        strStartsWith (lastComponent p) (sess ++ "_") = true
    · have hid : renameVideoPath sess lsp p e = p := by
        simp only [renameVideoPath]
        rw [if_pos hv, if_pos (by exact ⟨hc.1, hc.2⟩)]
      rw [hid]
      exact hid
    · have hA : renameVideoPath sess lsp p e =
          (lsp ++ [sess ++ "_cameras"]) ++ [canonicalName sess (lastComponent p)] := by
        simp only [renameVideoPath]
        rw [if_pos hv, if_neg (by exact fun hx => hc ⟨hx.1, hx.2⟩)]
      rw [hA]
      simp only [renameVideoPath]
      by_cases hv2 : isVideoFileOfSession lsp
          ((lsp ++ [sess ++ "_cameras"]) ++ [canonicalName sess (lastComponent p)]) e = true
      · rw [if_pos hv2, if_pos ?hcan]
        case hcan =>
          constructor
          · rw [List.dropLast_concat]
          · rw [lastComponent_concat]
            exact canonicalName_startsWith sess (lastComponent p)
      · rw [if_neg hv2]
  · have hid : renameVideoPath sess lsp p e = p := by
      simp only [renameVideoPath]
      rw [if_neg hv]
    rw [hid]
    exact hid

theorem map_rename_idem (f : FsPath → Entry → FsPath)
    (hf : ∀ p e, f (f p e) e = f p e) (fs : Fs) :
    (fs.map (fun b => (f b.1 b.2, b.2))).map (fun b => (f b.1 b.2, b.2)) =
      fs.map (fun b => (f b.1 b.2, b.2)) := by
  induction fs with
  | nil => rfl
  | cons b rest ih =>
      simp only [List.map_cons, hf]
      rw [ih]

theorem filterMap_rename_nil (f : FsPath → Entry → FsPath)
    (hf : ∀ p e, f (f p e) e = f p e) (fs : Fs) :
    (fs.map (fun b => (f b.1 b.2, b.2))).filterMap
      (fun b => if f b.1 b.2 = b.1 then none else some (b.1, f b.1 b.2)) = [] := by
  induction fs with
  | nil => rfl
  | cons b rest ih =>
      simp only [List.map_cons, List.filterMap_cons]
      rw [if_pos (hf b.1 b.2)]
      exact ih

/-- Claim C8: both FileNormalizers are idempotent.  Applying the extra-file
renamer or the video renamer a second time leaves the filesystem exactly as
after the first application and the second run performs no moves (its move
list is empty). -/
theorem claim_C8_normalizers_idempotent :
    ∀ (fs : Fs) (lsp : FsPath) (subj : String) (wl ax : List String),
      rename_extra_files_in_session
          (rename_extra_files_in_session fs lsp wl ax).1 lsp wl ax =
        ((rename_extra_files_in_session fs lsp wl ax).1, []) ∧
      rename_raw_videos_of_session
          (rename_raw_videos_of_session fs lsp subj).1 lsp subj =
        ((rename_raw_videos_of_session fs lsp subj).1, []) := by
  intro fs lsp subj wl ax
  constructor
  · unfold rename_extra_files_in_session
    refine Prod.ext ?_ ?_
    · exact map_rename_idem _ (renameExtraPath_idem (lastComponent lsp) wl ax lsp) fs
    · exact filterMap_rename_nil _ (renameExtraPath_idem (lastComponent lsp) wl ax lsp) fs
  · unfold rename_raw_videos_of_session
    refine Prod.ext ?_ ?_
    · exact map_rename_idem _ (renameVideoPath_idem (lastComponent lsp) lsp) fs
    · exact filterMap_rename_nil _ (renameVideoPath_idem (lastComponent lsp) lsp) fs

/-- Claim C2 (amended): the behavioral transfer verifies after copying: on
success the re-validated remote set equals the planned set up to ordering,
and whenever the run reaches the verification step and the re-validated set
differs from the planned one, the call returns RuntimeError, which is
distinct from the conflict error FileExistsError.  The video transfer
verifies likewise: on success the re-validated remote folder is exactly the
planned one, a re-validated folder different from the planned one yields
RuntimeError, and an absent remote folder yields FileNotFoundError.  The
ephys transfer re-validates the remote session but performs no comparison
against the planned set: it returns whatever the re-validation yields. -/
theorem claim_C2_amended :
    (∀ (fs : Fs) (lsp : FsPath) (subj : String) (lr rr : FsPath)
      (wl : List String) (fs1 : Fs) (copied : List FsPath),
      upload_raw_behavioral_data fs lsp subj lr rr wl = (fs1, Except.ok copied) →
      ∃ rel localFiles remoteFiles there,
        pyRelativeTo lsp lr = Except.ok rel ∧
        validate_raw_behavioral_data_of_session fs lsp subj wl true =
          Except.ok localFiles ∧
        plannedRemotePaths lsp (rr ++ rel) localFiles = Except.ok remoteFiles ∧
        validate_raw_behavioral_data_of_session fs1 (rr ++ rel) subj wl false =
          Except.ok there ∧
        sortPaths there = sortPaths remoteFiles) ∧
    (∀ (fs : Fs) (lsp : FsPath) (subj : String) (lr rr : FsPath)
      (wl : List String) (localFiles : List FsPath) (rel : FsPath)
      (remoteFiles : List FsPath) (fs1 : Fs) (copied there : List FsPath),
      validate_local_session_path lsp lr ("raw") = Except.ok () →
      validate_raw_behavioral_data_of_session fs lsp subj wl true =
        Except.ok localFiles →
      pyRelativeTo lsp lr = Except.ok rel →
      plannedRemotePaths lsp (rr ++ rel) localFiles = Except.ok remoteFiles →
      behavioralConflictCheck fs (localFiles.zip remoteFiles) = Except.ok () →
      copyBehavioralFiles fs (localFiles.zip remoteFiles) =
        (fs1, Except.ok copied) →
      validate_raw_behavioral_data_of_session fs1 (rr ++ rel) subj wl false =
        Except.ok there →
      ¬ sortPaths there = sortPaths remoteFiles →
      upload_raw_behavioral_data fs lsp subj lr rr wl =
        (fs1, Except.error Err.runtimeError)) ∧
    (∀ (fs : Fs) (lsp : FsPath) (subj : String) (lr rr : FsPath) (fs1 : Fs)
      (found : FsPath),
      upload_raw_videos fs lsp subj lr rr = (fs1, Except.ok found) →
      ∃ lv rel,
        validate_raw_videos_of_session fs lsp subj = Except.ok (some lv) ∧
        remotePathOf lr rr lv = Except.ok found ∧
        pyRelativeTo lsp lr = Except.ok rel ∧
        validate_raw_videos_of_session fs1 (rr ++ rel) subj =
          Except.ok (some found)) ∧
    (∀ (fs : Fs) (lsp : FsPath) (subj : String) (lr rr : FsPath)
      (lv rv rel : FsPath) (fs1 : Fs) (found2 : FsPath),
      validate_local_session_path lsp lr ("raw") = Except.ok () →
      validate_raw_videos_of_session fs lsp subj = Except.ok (some lv) →
      remotePathOf lr rr lv = Except.ok rv →
      fs.copytree lv rv = Except.ok fs1 →
      pyRelativeTo lsp lr = Except.ok rel →
      validate_raw_videos_of_session fs1 (rr ++ rel) subj =
        Except.ok (some found2) →
      ¬ found2 = rv →
      upload_raw_videos fs lsp subj lr rr =
        (fs1, Except.error Err.runtimeError)) ∧
    (∀ (fs : Fs) (lsp : FsPath) (subj : String) (lr rr : FsPath)
      (lv rv rel : FsPath) (fs1 : Fs),
      validate_local_session_path lsp lr ("raw") = Except.ok () →
      validate_raw_videos_of_session fs lsp subj = Except.ok (some lv) →
      remotePathOf lr rr lv = Except.ok rv →
      fs.copytree lv rv = Except.ok fs1 →
      pyRelativeTo lsp lr = Except.ok rel →
      validate_raw_videos_of_session fs1 (rr ++ rel) subj = Except.ok none →
      upload_raw_videos fs lsp subj lr rr =
        (fs1, Except.error Err.fileNotFoundError)) ∧
    (∀ (fs : Fs) (lsp : FsPath) (subj : String) (lr rr : FsPath)
      (ax : List String) (fs1 : Fs) (result : List FsPath),
      upload_raw_ephys_data fs lsp subj lr rr ax = (fs1, Except.ok result) →
      ∃ rel,
        pyRelativeTo lsp lr = Except.ok rel ∧
        validate_raw_ephys_data_of_session fs1 (rr ++ rel) subj ax =
          Except.ok result) ∧
    (¬ Err.runtimeError = Err.fileExistsError ∧
      ¬ Err.fileNotFoundError = Err.fileExistsError) := by
  refine ⟨?_, ?_, ?_, ?_, ?_, ?_, by decide, by decide⟩
  · intro fs lsp subj lr rr wl fs1 copied h
    simp only [upload_raw_behavioral_data] at h
    split at h
    · exact Except.noConfusion (congrArg Prod.snd h)
    · split at h
      · exact Except.noConfusion (congrArg Prod.snd h)
      · rename_i localFiles hval
        split at h
        · exact Except.noConfusion (congrArg Prod.snd h)
        · rename_i rel hrel
          split at h
          · exact Except.noConfusion (congrArg Prod.snd h)
          · rename_i remoteFiles hplan
            split at h
            · exact Except.noConfusion (congrArg Prod.snd h)
            · rename_i u hconf
              split at h
              · exact Except.noConfusion (congrArg Prod.snd h)
              · rename_i fsX copiedX hcopy
                split at h
                · exact Except.noConfusion (congrArg Prod.snd h)
                · rename_i there hrem
                  split at h
                  · exact Except.noConfusion (congrArg Prod.snd h)
                  · rename_i hsort
                    have hfs : fsX = fs1 := congrArg Prod.fst h
                    refine ⟨rel, localFiles, remoteFiles, there, hrel, hval, hplan,
                      ?_, not_not.mp hsort⟩
                    rw [← hfs]
                    exact hrem
  · intro fs lsp subj lr rr wl localFiles rel remoteFiles fs1 copied there
      hvp hval hrel hplan hconf hcopy hrem hne
    simp only [upload_raw_behavioral_data, hvp, hval, hrel, hplan, hconf, hcopy,
      hrem]
    rw [if_pos hne]
  · intro fs lsp subj lr rr fs1 found h
    simp only [upload_raw_videos] at h
    split at h
    · exact Except.noConfusion (congrArg Prod.snd h)
    · split at h
      · exact Except.noConfusion (congrArg Prod.snd h)
      · exact Except.noConfusion (congrArg Prod.snd h)
      · rename_i lv hlv
        split at h
        · exact Except.noConfusion (congrArg Prod.snd h)
        · rename_i rv hrv
          split at h
          · exact Except.noConfusion (congrArg Prod.snd h)
          · split at h
            · exact Except.noConfusion (congrArg Prod.snd h)
            · rename_i fsX hct
              split at h
              · exact Except.noConfusion (congrArg Prod.snd h)
              · rename_i rel hrel
                split at h
                · exact Except.noConfusion (congrArg Prod.snd h)
                · exact Except.noConfusion (congrArg Prod.snd h)
                · rename_i found2 hrem
                  split at h
                  · exact Except.noConfusion (congrArg Prod.snd h)
                  · rename_i hne
                    have hfs : fsX = fs1 := congrArg Prod.fst h
                    have hfd : found2 = found :=
                      Except.ok.inj (congrArg Prod.snd h)
                    have hf2 : found2 = rv := not_not.mp hne
                    refine ⟨lv, rel, hlv, ?_, hrel, ?_⟩
                    · rw [← hfd, hf2]
                      exact hrv
                    · rw [← hfs, ← hfd]
                      exact hrem
  · intro fs lsp subj lr rr lv rv rel fs1 found2 hvp hlv hrv hct hrel hrem hne
    simp only [upload_raw_videos, hvp, hlv, hrv]
    rw [if_neg (by simp [dircmpIsTruthy])]
    simp only [hct, hrel, hrem]
    rw [if_pos hne]
  · intro fs lsp subj lr rr lv rv rel fs1 hvp hlv hrv hct hrel hrem
    simp only [upload_raw_videos, hvp, hlv, hrv]
    rw [if_neg (by simp [dircmpIsTruthy])]
    simp only [hct, hrel, hrem]
  · intro fs lsp subj lr rr ax fs1 result h
    simp only [upload_raw_ephys_data] at h
    split at h
    · exact Except.noConfusion (congrArg Prod.snd h)
    · split at h
      · exact Except.noConfusion (congrArg Prod.snd h)
      · rename_i lrf hlrf
        split at h
        · exact Except.noConfusion (congrArg Prod.snd h)
        · split at h
          · exact Except.noConfusion (congrArg Prod.snd h)
          · rename_i rrf hrrf
            split at h
            · exact Except.noConfusion (congrArg Prod.snd h)
            · rename_i u hconf
              split at h
              · exact Except.noConfusion (congrArg Prod.snd h)
              · rename_i fsX u2 hct
                split at h
                · exact Except.noConfusion (congrArg Prod.snd h)
                · rename_i rel hrel
                  split at h
                  · exact Except.noConfusion (congrArg Prod.snd h)
                  · rename_i remoteThere hrem
                    have hfs : fsX = fs1 := congrArg Prod.fst h
                    have hres : remoteThere = result :=
                      Except.ok.inj (congrArg Prod.snd h)
                    refine ⟨rel, hrel, ?_⟩
                    rw [← hfs, ← hres]
                    exact hrem

/-- Witness for the amended C2 on a concrete run that reaches the
verification step and mismatches: the remote session already holds an extra
event-log file, the behavioral copy succeeds, the re-validated remote set
differs from the planned set, and the call returns RuntimeError (not a
FileExistsError). -/
theorem claim_C2_amended_witness :
    upload_raw_behavioral_data exFsBehavMismatch exLsp ("M017") ["local"]
      ["remote"] [] =
      ((copyBehavioralFiles exFsBehavMismatch
          [(exLsp ++ ["task.py"], exRsp ++ ["task.py"])]).1,
        Except.error Err.runtimeError) :=
  claim_C2_amended.2.1 exFsBehavMismatch exLsp ("M017") ["local"] ["remote"] []
    [exLsp ++ ["task.py"]] ["raw", "M017", exSess] [exRsp ++ ["task.py"]]
    (copyBehavioralFiles exFsBehavMismatch
      [(exLsp ++ ["task.py"], exRsp ++ ["task.py"])]).1
    [exRsp ++ ["task.py"]]
    [exRsp ++ ["task.py"], exRsp ++ ["extra.pca"]]
    (by decide) (by decide) (by decide) (by decide) (by decide) (by decide)
    (by decide) (by decide)

theorem modalityEvent_notin_ev1 (m : Modality) (fs' : Fs) (b : Bool) :
    modalityEvent m fs' ∉ (if b then [Event.renamedVideos] else []) := by
  cases b <;> cases m <;> simp [modalityEvent]

theorem modalityEvent_notin_renamed (m : Modality) (fs' : Fs) (b c : Bool) :
    modalityEvent m fs' ∉
      ((if b then [Event.renamedVideos] else []) ++
        (if c then [Event.renamedExtraFiles] else [])) := by
  cases b <;> cases c <;> cases m <;> simp [modalityEvent]

theorem traceModalities_ev1 (b : Bool) :
    traceModalities (if b then [Event.renamedVideos] else []) = [] := by
  cases b <;> simp [traceModalities, List.filterMap, eventModality]

theorem traceModalities_renamed (b c : Bool) :
    traceModalities
      ((if b then [Event.renamedVideos] else []) ++
        (if c then [Event.renamedExtraFiles] else [])) = [] := by
  cases b <;> cases c <;> simp [traceModalities, List.filterMap, eventModality]

/-- Claim C5: `upload_raw_session` performs the per-modality transfers
sequentially in the fixed order behavior, ephys, videos, extra files: the
successful-modality trace is always a prefix (an initial `take`) of the
requested-modality list in that order, it is the whole list exactly when the
call returns successfully (so an error stops the sequence immediately), and
there is no rollback: every entry present right after a successful modality
transfer, at any path outside the local session tree (in particular every
copied remote file), is still present in the final filesystem. -/
theorem claim_C5_sequential_no_rollback :
    ∀ (fs : Fs) (lsp : FsPath) (subj : String) (lr rr : FsPath)
      (ib ie iv ixf : Bool) (wl ax : List String) (rvf ref : Bool),
      (∃ n, traceModalities
          (upload_raw_session fs lsp subj lr rr ib ie iv ixf wl ax rvf ref).2.1 =
        (requestedModalities ib ie iv ixf).take n) ∧
      ((upload_raw_session fs lsp subj lr rr ib ie iv ixf wl ax rvf ref).2.2 =
          Except.ok true →
        traceModalities
          (upload_raw_session fs lsp subj lr rr ib ie iv ixf wl ax rvf ref).2.1 =
          requestedModalities ib ie iv ixf) ∧
      (∀ (m : Modality) (fs' : Fs) (q : FsPath) (e : Entry),
        modalityEvent m fs' ∈
          (upload_raw_session fs lsp subj lr rr ib ie iv ixf wl ax rvf ref).2.1 →
        ¬ lsp.isPrefixOf q = true →
        fs'.find q = some e →
        (upload_raw_session fs lsp subj lr rr ib ie iv ixf wl ax rvf ref).1.find q =
          some e) := by
  intro fs lsp subj lr rr ib ie iv ixf wl ax rvf ref
  simp only [upload_raw_session]
  split
  · refine ⟨⟨0, by simp [traceModalities]⟩, fun hok => Except.noConfusion hok, ?_⟩
    intro m fs' q e hmem
    exact absurd hmem (List.not_mem_nil _)
  · split
    · refine ⟨⟨0, ?_⟩, fun hok => Except.noConfusion hok, ?_⟩
      · rw [List.take_zero]
        exact traceModalities_ev1 rvf
      · intro m fs' q e hmem
        exact absurd hmem (modalityEvent_notin_ev1 m fs' rvf)
    · split
      · refine ⟨⟨0, ?_⟩, fun hok => Except.noConfusion hok, ?_⟩
        · rw [List.take_zero]
          exact traceModalities_renamed rvf ref
        · intro m fs' q e hmem
          exact absurd hmem (modalityEvent_notin_renamed m fs' rvf ref)
      · refine ⟨?_, ?_, ?_⟩
        · obtain ⟨n, h1, h2⟩ := runModalities_tags _ (requestedModalities ib ie iv ixf) _
          refine ⟨n, ?_⟩
          rw [h1, traceModalities_append, traceModalities_renamed rvf ref]
          simp [traceModalities, List.filterMap, eventModality]
        · intro hok
          obtain ⟨n, h1, h2⟩ := runModalities_tags _ (requestedModalities ib ie iv ixf) _
          rw [h2 hok, traceModalities_append, traceModalities_renamed rvf ref]
          simp [traceModalities, List.filterMap, eventModality]
        · intro m fs' q e hmem hq hfind
          refine runModalities_persist (fun q => ¬ lsp.isPrefixOf q = true) _
            (requestedModalities ib ie iv ixf) _ ?_ ?_ m fs' hmem q e hq hfind
          · intro mm fs''
            exact modalityEvent_notin_init mm fs'' rvf ref _
          · intro mm hmm fsz qz ez hPz hfz
            exact modalityAct_preserve lsp subj lr rr wl ax mm
              (behavior_not_in_tail ib ie iv ixf mm hmm) fsz qz ez hPz hfz

/-- Witness for C5 on a fully successful whole-session upload: the remote
task script copied by the behavioral modality is still present in the final
filesystem after the ephys, video and extra-file transfers. -/
theorem claim_C5_witness :
    (upload_raw_session exFsFull exLsp ("M017") ["local"] ["remote"] true true true
      true ["comment.txt"] [".txt"] false false).1.find (exRsp ++ ["task.py"]) =
      some (Entry.file [1, 2, 3] 100) :=
  (claim_C5_sequential_no_rollback exFsFull exLsp ("M017") ["local"] ["remote"]
    true true true true ["comment.txt"] [".txt"] false false).2.2
    Modality.behavior
    (upload_raw_behavioral_data exFsFull exLsp ("M017") ["local"] ["remote"]
      ["comment.txt"]).1
    (exRsp ++ ["task.py"]) (Entry.file [1, 2, 3] 100)
    (by decide) (by decide) (by decide)

/-- Claim C7: whenever `validate_raw_session` runs inside
`upload_raw_session`, the filesystem it validates is the input filesystem
after the requested renamings (videos first, extra files second), and in the
event trace the requested rename events occur strictly before the validation
event; validation never sees pre-rename names. -/
theorem claim_C7_rename_before_validation :
    ∀ (fs : Fs) (lsp : FsPath) (subj : String) (lr rr : FsPath)
      (ib ie iv ixf : Bool) (wl ax : List String) (rvf ref : Bool) (fsv : Fs),
      Event.validated fsv ∈
        (upload_raw_session fs lsp subj lr rr ib ie iv ixf wl ax rvf ref).2.1 →
      fsv = renamedStage fs lsp subj wl ax rvf ref ∧
      ∃ pre post,
        (upload_raw_session fs lsp subj lr rr ib ie iv ixf wl ax rvf ref).2.1 =
          pre ++ Event.validated fsv :: post ∧
        (rvf = true → Event.renamedVideos ∈ pre) ∧
        (ref = true → Event.renamedExtraFiles ∈ pre) := by
  intro fs lsp subj lr rr ib ie iv ixf wl ax rvf ref fsv
  simp only [upload_raw_session]
  split
  · intro hmem
    exact absurd hmem (List.not_mem_nil _)
  · split
    · intro hmem
      cases hrv : rvf <;> rw [hrv] at hmem <;> simp at hmem
    · split
      · intro hmem
        cases hrv : rvf <;> cases hre : ref <;> rw [hrv, hre] at hmem <;>
          simp at hmem
      · intro hmem
        obtain ⟨extra, hsh, hextra⟩ :=
          runModalities_trace_shape _ (requestedModalities ib ie iv ixf) _
        rw [hsh] at hmem
        have hfsv : fsv = renamedStage fs lsp subj wl ax rvf ref := by
          rcases List.mem_append.mp hmem with h0 | h0
          · rcases List.mem_append.mp h0 with h1 | h1
            · exact absurd h1 (by
                cases hrv : rvf <;> cases hre : ref <;> rw [hrv, hre] at h1 <;>
                  simp at h1)
            · have := List.mem_singleton.mp h1
              rw [Event.validated.inj this]
              rfl
          · obtain ⟨mm, fsm, hev⟩ := hextra _ h0
            exact absurd hev (by cases mm <;> simp [modalityEvent])
        refine ⟨hfsv, ?_⟩
        refine ⟨(if rvf then [Event.renamedVideos] else []) ++
          (if ref then [Event.renamedExtraFiles] else []), extra, ?_, ?_, ?_⟩
        · rw [hsh, hfsv]
          rw [List.append_assoc, List.singleton_append]
          simp only [renamedStage]
        · intro hrv
          rw [hrv]
          simp
        · intro hre
          rw [hre]
          cases rvf <;> simp

/-- Witness for C7 on a concrete run with video renaming requested: the
validated filesystem is the renamed stage and the rename event precedes the
validation event. -/
theorem claim_C7_witness :
    renamedStage exFsFull exLsp ("M017") ["comment.txt"] [".txt"] true false =
      renamedStage exFsFull exLsp ("M017") ["comment.txt"] [".txt"] true false ∧
    ∃ pre post,
      (upload_raw_session exFsFull exLsp ("M017") ["local"] ["remote"] false false
        true false ["comment.txt"] [".txt"] true false).2.1 =
        pre ++ Event.validated
          (renamedStage exFsFull exLsp ("M017") ["comment.txt"] [".txt"] true false) ::
            post ∧
      (true = true → Event.renamedVideos ∈ pre) ∧
      (false = true → Event.renamedExtraFiles ∈ pre) :=
  claim_C7_rename_before_validation exFsFull exLsp ("M017") ["local"] ["remote"]
    false false true false ["comment.txt"] [".txt"] true false
    (renamedStage exFsFull exLsp ("M017") ["comment.txt"] [".txt"] true false)
    (by decide)

end Beneuro
